import Mathlib

set_option maxHeartbeats 1000000

/-!
Verification of the miniassistant conversation-orchestration engine.

The definitions below are a shallow embedding of the Python sources
(`src/miniassistant/…`): pure helpers are translated directly, stateful
code becomes explicit state passing, and the external world (LLM provider
responses, tool side effects, the XML tool-call parser, clock readings)
is supplied as explicit oracle parameters.  Python strings are modelled
by `String` with code-point semantics (every helper below works on
`String.toList`, matching Python's code-point slicing); Python's
`int(len(text)/3.0)` and `int(num_ctx * 0.15)` are modelled with exact
natural-number division, which agrees with the float computation for all
realistic sizes.
-/

namespace Miniassistant

/-! ## String helpers mirroring Python `str` semantics -/

/-- Python `s[:n]` (code-point based slice). -/
def strTake (s : String) (n : Nat) : String := String.mk (s.toList.take n)

/-- Python `s[n:]` (code-point based slice). -/
def strDrop (s : String) (n : Nat) : String := String.mk (s.toList.drop n)

/-- Python `s.lower()` restricted to ASCII case folding. -/
def lowerStr (s : String) : String := String.mk (s.toList.map Char.toLower)

/-- Python `s.upper()` restricted to ASCII case folding. -/
def upperStr (s : String) : String := String.mk (s.toList.map Char.toUpper)

/-- ASCII whitespace as stripped by Python `str.strip()`. -/
def isPyWs (c : Char) : Bool := c == ' ' || c == '\t' || c == '\n' || c == '\r'

/-- Python `s.strip()` (ASCII whitespace). -/
def pyStrip (s : String) : String :=
  String.mk (((s.toList.dropWhile isPyWs).reverse.dropWhile isPyWs).reverse)

/-- Python `s.startswith(p)`. -/
def strStartsWith (s p : String) : Bool := s.toList.take p.toList.length == p.toList

/-- Python `s.endswith(p)`. -/
def strEndsWith (s p : String) : Bool := s.toList.reverse.take p.toList.length == p.toList.reverse

/-- Python `sub in s` (substring containment). -/
def strContainsSub (s sub : String) : Bool :=
  (List.range (s.toList.length + 1)).any
    (fun i => (s.toList.drop i).take sub.toList.length == sub.toList)

/-- Left fold concatenation, modelling repeated Python `+=` on strings. -/
def joinStr : List String → String
  | [] => ""
  | s :: rest => s ++ joinStr rest

/-! ## Data model (§3 of the spec, `chat_loop.py` message dicts)

A message dict has a role, text content, optional hidden thinking, an
optional `tool_calls` list on assistant messages and a `tool_name` on
tool messages.  Tool calls are kept opaque: a function name plus the
serialised argument string. -/

structure RawTC where
  name : String
  args : String
deriving Repr, DecidableEq, Inhabited

structure Msg where
  role : String
  content : String
  thinking : String := ""
  toolCalls : List RawTC := []
  toolName : String := ""
deriving Repr, DecidableEq, Inhabited

/-! ## Token estimation (`chat_loop._estimate_tokens`, lines 314-332)

Python: `if not text: return 0` then `max(1, int(len(text)/3.0))`. -/

/-- chat_loop._estimate_tokens: 0 for the empty string, otherwise
`max 1 (len/3)`. -/
def estimate_tokens (text : String) : Nat :=
  if text.length = 0 then 0 else max 1 (text.length / 3)

/-- Serialisation of one raw tool call, modelling
`json.dumps` on the canonical `\x7b"function": \x7b"name": …, "arguments": …\x7d\x7d` shape. -/
def dumpRawTC (tc : RawTC) : String :=
  "\x7b\"function\": \x7b\"name\": \"" ++ tc.name ++ "\", \"arguments\": " ++ tc.args ++ "\x7d\x7d"

/-- Serialisation of a tool-call list (`json.dumps(m.get("tool_calls"))`). -/
def dumpToolCalls (tcs : List RawTC) : String :=
  "[" ++ String.intercalate ", " (tcs.map dumpRawTC) ++ "]"

/-- The text whose length `_message_tokens_estimate` measures:
role + content + thinking (+ serialised tool calls when present). -/
def messageEstimateText (m : Msg) : String :=
  m.role ++ m.content ++ m.thinking ++ (if m.toolCalls.isEmpty then "" else dumpToolCalls m.toolCalls)

/-- chat_loop._message_tokens_estimate. -/
def message_tokens_estimate (m : Msg) : Nat :=
  estimate_tokens (messageEstimateText m)

/-- chat_loop._messages_token_estimate. -/
def messages_token_estimate (ms : List Msg) : Nat :=
  (ms.map message_tokens_estimate).sum

/-! ## The exec tool call site (`chat_loop._run_tool`, line 890 /
`tools.run_exec`, lines 33-67)

`tools.run_exec` is declared `run_exec(command, timeout=60, cwd=None)`;
the exec branch of `_run_tool` invokes it as
`run_exec(cmd, cwd=workspace, extra_env=_exec_env(config))`.  Python call
binding raises `TypeError` for a keyword argument that matches no
parameter, before the callee body runs. -/

/-- Parameter names of `tools.run_exec` (tools.py line 33). -/
def run_exec_params : List String := ["command", "timeout", "cwd"]

/-- Keyword-argument names used at the exec call site in
`chat_loop._run_tool` (chat_loop.py line 890). -/
def run_tool_exec_kwargs : List String := ["cwd", "extra_env"]

/-- Outcome of a Python call: a value, or a raised exception. -/
inductive PyOutcome (α : Type) where
  | ok (val : α)
  | raised (exnMsg : String)
deriving Repr, DecidableEq

/-- Python call binding: the first keyword argument that matches no
parameter name (which raises `TypeError`), if any. -/
def firstUnexpectedKwarg (params kwargs : List String) : Option String :=
  kwargs.find? (fun k => !params.contains k)

/-- Result dict of `tools.run_exec`. -/
structure ExecResult where
  stdout : String
  stderr : String
  returncode : Int
deriving Repr, DecidableEq

/-- Outcome of `subprocess.run` as observed by `run_exec` (oracle). -/
inductive SubprocessOutcome where
  | completed (returncode : Int) (stdout stderr : String)
  | timedOut
  | otherError (msg : String)
deriving Repr, DecidableEq

/-- Body of `tools.run_exec` (tools.py lines 39-67): normal completion is
passed through, `TimeoutExpired` and any other exception become a
`returncode = -1` result; the body itself never raises. -/
def run_exec_body (outcome : SubprocessOutcome) : ExecResult :=
  match outcome with
  | .completed rc out err => { stdout := out, stderr := err, returncode := rc }
  | .timedOut => { stdout := "", stderr := "Command timed out", returncode := -1 }
  | .otherError e => { stdout := "", stderr := e, returncode := -1 }

/-- The exec branch of `chat_loop._run_tool` (chat_loop.py lines 887-891):
it invokes `run_exec` with keyword arguments `cwd` and `extra_env`.
Binding is checked first, exactly as Python does. -/
def run_tool_exec (_command : String) (outcome : SubprocessOutcome) : PyOutcome String :=
  match firstUnexpectedKwarg run_exec_params run_tool_exec_kwargs with
  | some k => .raised ("TypeError: run_exec() got an unexpected keyword argument " ++ k)
  | none =>
    let r := run_exec_body outcome
    .ok ("returncode: " ++ toString r.returncode ++ "\nstdout:\n" ++ r.stdout
          ++ "\nstderr:\n" ++ r.stderr)

/-! ## Context budget and compaction (`chat_loop.py` lines 406-535)

`context_quota` is a float (default 0.85); it is modelled here as an
integer percentage `quotaPct` (85 for the default), which represents the
configured values exactly. -/

/-- chat_loop._context_budget: `int(num_ctx * min(max(quota, 0.5), 0.95))`. -/
def context_budget (quotaPct : Nat) (num_ctx : Nat) : Nat :=
  num_ctx * (min (max quotaPct 50) 95) / 100

/-- chat_loop._needs_compacting: at least 6 messages and
system + tools + messages above the quota budget. -/
def needs_compacting (quotaPct : Nat) (systemPrompt toolsJson : String)
    (msgs : List Msg) (num_ctx : Nat) : Bool :=
  if msgs.length < 6 then false
  else
    estimate_tokens systemPrompt + estimate_tokens toolsJson + messages_token_estimate msgs
      > context_budget quotaPct num_ctx

/-- The hard-trim loop (`while out and tokens(out) > budget: out.pop(0)`),
shared by `_compact_history`'s fallback and `_trim_messages_to_fit`. -/
def hard_trim (budget : Nat) : List Msg → List Msg
  | [] => []
  | m :: rest =>
      if messages_token_estimate (m :: rest) ≤ budget then m :: rest
      else hard_trim budget rest

/-- Reserve for the newest messages in `_compact_history`:
`int(num_ctx * 0.15)`. -/
def compact_reserve (num_ctx : Nat) : Nat := num_ctx * 15 / 100

/-- Inner loop of the newest-messages split of `_compact_history`,
running over the reversed message list with the running token count:
stop as soon as adding the next message would exceed the reserve. -/
def take_recent_go (reserve : Nat) : Nat → List Msg → List Msg
  | _, [] => []
  | rt, m :: rest =>
      if reserve < rt + message_tokens_estimate m then []
      else m :: take_recent_go reserve (rt + message_tokens_estimate m) rest

/-- The newest-messages split of `_compact_history` on the reversed list:
the newest message is always taken (the Python guard `and recent` skips
the bound check while `recent` is still empty). -/
def take_recent (reserve : Nat) : List Msg → List Msg
  | [] => []
  | m :: rest => m :: take_recent_go reserve (message_tokens_estimate m) rest

/-- Messages retained unchanged by `_compact_history` (newest suffix). -/
def compact_recent (num_ctx : Nat) (msgs : List Msg) : List Msg :=
  (take_recent (compact_reserve num_ctx) msgs.reverse).reverse

/-- Messages summarised away by `_compact_history` (oldest part). -/
def compact_old (num_ctx : Nat) (msgs : List Msg) : List Msg :=
  msgs.take (msgs.length - (compact_recent num_ctx msgs).length)

/-- chat_loop._format_messages_for_summary, per message: tool results,
assistant tool-call signatures (300-char-capped arguments) and text,
user turns, synthetic system notes. -/
def format_msg_summary (m : Msg) : List String :=
  let content := pyStrip m.content
  if m.role == "tool" then
    if content ≠ "" then ["[Tool-Ergebnis]: " ++ strTake content 800] else []
  else if m.role == "assistant" then
    (m.toolCalls.map (fun tc => "[Tool-Aufruf: " ++ tc.name ++ "(" ++ strTake tc.args 300 ++ ")]"))
      ++ (if content ≠ "" then ["Assistant: " ++ strTake content 800] else [])
  else if m.role == "user" then
    if content ≠ "" then ["User: " ++ strTake content 1000] else []
  else if m.role == "system" then
    if content ≠ "" then ["[System]: " ++ strTake content 300] else []
  else []

/-- chat_loop._format_messages_for_summary. -/
def format_messages_for_summary (ms : List Msg) : String :=
  String.intercalate "\n" (ms.map format_msg_summary).flatten

/-- Literal content prefix of the synthetic compaction summary message
(chat_loop.py line 529). -/
def summaryNotePrefix : String := "[Zusammenfassung des bisherigen Gesprächs]"

/-- The synthetic system message produced by `_compact_history`. -/
def compact_summary_msg (summary : String) : Msg :=
  { role := "system", content := summaryNotePrefix ++ "\n" ++ summary }

/-- chat_loop._compact_history (lines 460-535).  The summariser model
call is an oracle `summarise`: `none` models the call raising, `some`
the returned message content. -/
def compact_history (quotaPct : Nat) (systemPrompt toolsJson : String)
    (summarise : String → Option String) (num_ctx : Nat) (msgs : List Msg) : List Msg :=
  let budget := context_budget quotaPct num_ctx
  let fixed := estimate_tokens systemPrompt + estimate_tokens toolsJson
  let msgBudget := budget - fixed
  if messages_token_estimate msgs ≤ msgBudget then msgs
  else
    let recent := compact_recent num_ctx msgs
    let old := compact_old num_ctx msgs
    if old.isEmpty then msgs
    else
      let transcript := format_messages_for_summary old
      if pyStrip transcript = "" then recent
      else
        match summarise transcript with
        | none => hard_trim msgBudget msgs
        | some raw =>
            let summary := pyStrip raw
            if summary = "" then hard_trim msgBudget msgs
            else compact_summary_msg summary :: recent

/-! ## Pre-call trimming (`chat_loop._trim_messages_to_fit`, lines 353-382) -/

/-- Splits a list into its initial segment and last element. -/
def splitLast : List Msg → Option (List Msg × Msg)
  | [] => none
  | [m] => some ([], m)
  | m :: n :: rest => (splitLast (n :: rest)).map (fun p => (m :: p.1, p.2))

/-- chat_loop._trim_messages_to_fit: system prompt, tools schema and the
last message are pinned; the history is dropped from the front until
`system + tools + current + history ≤ num_ctx − 1024`. -/
def trim_messages_to_fit (systemPrompt toolsJson : String) (num_ctx : Nat)
    (msgs : List Msg) : List Msg :=
  match splitLast msgs with
  | none => []
  | some (history, current) =>
      if messages_token_estimate history
          ≤ num_ctx - 1024 - estimate_tokens systemPrompt
              - estimate_tokens toolsJson - message_tokens_estimate current then msgs
      else hard_trim (num_ctx - 1024 - estimate_tokens systemPrompt
              - estimate_tokens toolsJson - message_tokens_estimate current) history ++ [current]

/-! ## The tool-pairing invariant (§3 / §8 invariant 3)

"Every assistant message that carries tool calls is followed by exactly
one tool message per declared call, in declaration order, before any
further user or assistant message."  Formalised as a left-to-right
automaton over the message list. -/

inductive TPState where
  | clean
  | afterBatch
  | pending (tcs : List RawTC)
  | bad
deriving Repr, DecidableEq

/-- Automaton action for a message seen with no pending obligations:
an assistant message carrying tool calls opens a batch. -/
def tpOpen (m : Msg) : TPState :=
  if m.role == "assistant" && !m.toolCalls.isEmpty then .pending m.toolCalls else .clean

/-- One automaton step of the pairing invariant. -/
def tpStep : TPState → Msg → TPState
  | .bad, _ => .bad
  | .pending [], m => tpOpen m
  | .pending (tc :: tcs), m =>
      if m.role == "tool" && m.toolName == tc.name then
        (if tcs.isEmpty then .afterBatch else .pending tcs)
      else .bad
  | .afterBatch, m => if m.role == "tool" then .bad else tpOpen m
  | .clean, m => tpOpen m

/-- Run of the pairing automaton. -/
def tpRun (s : TPState) (l : List Msg) : TPState := l.foldl tpStep s

/-- Accepting states: no pending obligations left. -/
def tpOk : TPState → Bool
  | .clean => true
  | .afterBatch => true
  | _ => false

/-- The pairing invariant of a message list. -/
def toolPairing (l : List Msg) : Bool := tpOk (tpRun .clean l)

/-! ## The tool-calling loop (`chat_loop.chat_round`, lines 1983-2236)

The loop is modelled for one model attempt; `chat_round` tries the
primary model and then each fallback on a fresh state, returning the
first attempt that does not raise (`chat_round_model`).  External
effects are oracles in `Env`:

* `script` — the successive provider responses (one entry consumed per
  `_dispatch_chat` call, including nudge and wrap-up calls); an empty
  script at a call site models the adapter raising after its retries,
  which aborts the attempt;
* `runTool` — the result string of `_run_tool` for an executed call
  (the model covers runs in which no tool raised: an in-batch exception
  abandons the whole attempt without producing a message list);
* `xmlCalls` — the `<tool_call>` XML fallback parser applied to the
  response content when the native `tool_calls` field is empty;
* `cancelAt r` — the value `check_cancel(user_id)` returns at the round
  boundary after round `r`;
* `userId` — the `_chat_context` user id (checks happen only when set).
-/

structure Resp where
  contentParts : List String
  thinking : String := ""
  toolCalls : List RawTC := []
deriving Repr, DecidableEq, Inhabited

/-- Full content of a response (concatenation of its streamed parts). -/
def Resp.content (r : Resp) : String := joinStr r.contentParts

structure Env where
  script : List Resp
  runTool : RawTC → String
  xmlCalls : String → List RawTC
  cancelAt : Nat → Option String
  userId : Option String
  systemPrompt : String := ""
  toolsJson : String := ""
  num_ctx : Nat := 4096

/-- chat_loop._extract_tool_calls (lines 1944-1980): the native
`tool_calls` field when non-empty, else the XML fallback on the content. -/
def extract_tool_calls (env : Env) (r : Resp) : List RawTC :=
  if r.toolCalls.isEmpty then env.xmlCalls (Resp.content r) else r.toolCalls

/-- The user message appended at the start of an attempt. -/
def userMsg (s : String) : Msg := { role := "user", content := s }

/-- The assistant message appended when the response declared tool calls
(chat_loop.py lines 2092-2097); it records the native `tool_calls` field. -/
def assistantMsg (r : Resp) (native : List RawTC) : Msg :=
  { role := "assistant", content := Resp.content r, thinking := r.thinking, toolCalls := native }

/-- The assistant message appended on a final (tool-call-free) response. -/
def assistantPlain (r : Resp) : Msg :=
  { role := "assistant", content := Resp.content r, thinking := r.thinking }

/-- The tool message appended for one executed call (chat_loop.py line 2117). -/
def toolMsg (env : Env) (tc : RawTC) : Msg :=
  { role := "tool", content := env.runTool tc, toolName := tc.name }

/-- The cancellation marker appended to the accumulated content
(chat_loop.py lines 2107/2109/2423). -/
def cancelMarker : String := "\n\n*(Verarbeitung abgebrochen)*"

/-- Wrap-up directive sent when the round cap is exhausted
(chat_loop.py lines 2129-2136; abbreviated text, the content plays no
role in any property). -/
def wrapupText : String := "SYSTEM: You have used ALL your tool rounds - give your FINAL answer NOW."

/-- Stuck-prevention nudge (chat_loop.py line 2158). -/
def nudgeText : String :=
  "You have not provided a text response yet. Please give your final answer to the user now."

/-- Observable actions of one attempt, in execution order. -/
inductive Act where
  | modelCall
  | toolExec (name : String)
  | clearCancel
deriving Repr, DecidableEq

structure LoopSt where
  msgs : List Msg
  totalContent : String
  totalThinking : String
  sent : Bool
  script : List Resp
  trace : List Act

structure RoundOut where
  content : String
  thinking : String
  msgs : List Msg
  sentImage : Bool
  cancelled : Bool
  trace : List Act
deriving Repr, DecidableEq, Inhabited

/-- Execution of one extracted tool call (chat_loop.py lines 2114-2119):
append the tool message and raise `_sent_image` whenever the call is
named `send_image`, regardless of its result string. -/
def toolStep (env : Env) (st : LoopSt) (tc : RawTC) : LoopSt :=
  { st with
      trace := st.trace ++ [Act.toolExec tc.name],
      msgs := st.msgs ++ [toolMsg env tc],
      sent := st.sent || (tc.name == "send_image") }

/-- Wrap-up nudge of `chat_round` at cap exhaustion (lines 2127-2152):
append the directive user message, call the model once (consuming the
script; an empty script models the call raising, which is caught), and
replace the accumulated content when the wrap-up text is non-empty. -/
def wrapupStep (st : LoopSt) : LoopSt :=
  match st.script with
  | [] => { st with msgs := st.msgs ++ [userMsg wrapupText] }
  | r :: rest =>
      { st with
          msgs := st.msgs ++ [userMsg wrapupText]
            ++ [{ role := "assistant", content := pyStrip (Resp.content r),
                  thinking := r.thinking }],
          script := rest,
          trace := st.trace ++ [Act.modelCall],
          totalThinking := st.totalThinking ++ r.thinking,
          totalContent := if pyStrip (Resp.content r) = "" then st.totalContent
                          else pyStrip (Resp.content r) }

/-- Stuck-prevention nudge of `chat_round` (lines 2154-2171). -/
def nudgeStep (st : LoopSt) : LoopSt :=
  match st.script with
  | [] => { st with msgs := st.msgs ++ [userMsg nudgeText] }
  | r :: rest =>
      { st with
          msgs := st.msgs ++ [userMsg nudgeText] ++ [assistantPlain r],
          script := rest,
          trace := st.trace ++ [Act.modelCall],
          totalThinking := st.totalThinking ++ r.thinking,
          totalContent := st.totalContent ++ Resp.content r }

/-- Post-loop processing of `chat_round` (lines 2126-2195): wrap-up on
cap exhaustion, stuck-prevention nudge, `send_image` content
suppression, final stripping. -/
def finishRound (hitCap : Bool) (st : LoopSt) : RoundOut :=
  let st :=
    if hitCap && !st.sent then wrapupStep st
    else if pyStrip st.totalContent = "" && !st.sent then nudgeStep st
    else st
  { content := pyStrip (if st.sent && pyStrip st.totalContent ≠ "" then "" else st.totalContent),
    thinking := pyStrip st.totalThinking, msgs := st.msgs,
    sentImage := st.sent, cancelled := false, trace := st.trace }

/-- Absorption of one model response into the loop state (lines
2054-2083): the pre-call trim, the script consumption, and the
content/thinking accumulation. -/
def roundAbsorb (st : LoopSt) (r : Resp) (rest : List Resp) (trimmed : List Msg) : LoopSt :=
  { st with
      msgs := trimmed
      script := rest
      trace := st.trace ++ [Act.modelCall]
      totalContent := st.totalContent ++ Resp.content r
      totalThinking := st.totalThinking ++ r.thinking }

/-- The cancellation exit of `chat_round` (lines 2098-2113): clear the
flag, append the marker to the content, close the message list with an
assistant note, and execute none of the pending calls.  `st` already
holds the assistant message that declared the calls. -/
def cancelNoteMsg (st : LoopSt) : Msg :=
  { role := "assistant", content := pyStrip (st.totalContent ++ cancelMarker) }

def cancelOut (st : LoopSt) : RoundOut :=
  { content := pyStrip (st.totalContent ++ cancelMarker)
    thinking := pyStrip st.totalThinking
    msgs := st.msgs ++ [cancelNoteMsg st]
    sentImage := st.sent
    cancelled := true
    trace := st.trace ++ [Act.clearCancel] }

/-- The `while rounds < max_tool_rounds` loop of `chat_round`
(lines 2043-2120), with `fuel` the remaining rounds and `round` the
current round index.  Returns `none` when a provider call raises
(script exhausted), which makes `chat_round` move to the next fallback
model. -/
def runLoop (env : Env) : Nat → Nat → LoopSt → Option RoundOut
  | _, 0, st => some (finishRound true st)
  | round, fuel + 1, st =>
      match st.script with
      | [] => none
      | r :: rest =>
          let st1 := roundAbsorb st r rest
            (trim_messages_to_fit env.systemPrompt env.toolsJson env.num_ctx st.msgs)
          if (extract_tool_calls env r).isEmpty then
            some (finishRound false { st1 with msgs := st1.msgs ++ [assistantPlain r] })
          else
            let st2 := { st1 with msgs := st1.msgs ++ [assistantMsg r r.toolCalls] }
            match (if env.userId.isSome then env.cancelAt round else none) with
            | some _ => some (cancelOut st2)
            | none =>
                runLoop env (round + 1) fuel
                  ((extract_tool_calls env r).foldl (toolStep env) st2)

/-- One model attempt of `chat_round`: fresh message list
(compacted history plus the new user message), fresh totals. -/
def chatRoundAttempt (env : Env) (cap : Nat) (history : List Msg)
    (userContent : String) : Option RoundOut :=
  runLoop env 0 cap
    { msgs := history ++ [userMsg userContent], totalContent := "", totalThinking := "",
      sent := false, script := env.script, trace := [] }

/-- chat_round's fallback iteration (lines 2026-2198): each model in
`models_to_try` gets its own environment; the first attempt that does
not raise — including an attempt ended by cancellation (`if msgs_final:
break`) — is returned. -/
def chat_round_model (cap : Nat) (history : List Msg) (userContent : String) :
    List Env → Option RoundOut
  | [] => none
  | e :: rest =>
      match chatRoundAttempt e cap history userContent with
      | some r => some r
      | none => chat_round_model cap history userContent rest

/-! ## The streaming loop (`chat_loop.chat_round_stream`, lines 2239-2488)

Same state machine, but every content token is emitted as a `content`
delta event and the terminal event is `done`.  The stream uses a single
model (no fallback switching) and extracts tool calls only from the
accumulated native chunks (the XML fallback never fires because the
extraction input carries no content, line 2358).  A provider failure
(script exhausted at a streaming call) yields the error `done` event of
line 2349. -/

inductive SEv where
  | thinkingDelta (s : String)
  | contentDelta (s : String)
  | toolCallEv (names : List String)
  | statusEv (s : String)
  | doneEv (content : String) (thinking : String) (isError : Bool)
deriving Repr, DecidableEq

structure StreamSt where
  msgs : List Msg
  totalContent : String
  totalThinking : String
  sent : Bool
  script : List Resp
  events : List SEv

structure StreamOut where
  events : List SEv
  msgs : List Msg
  sent : Bool
  cancelled : Bool
  errored : Bool
  hitCap : Bool
deriving Repr, DecidableEq, Inhabited

/-- Content delta events of one streamed response (only non-empty chunks
are yielded, lines 2329-2331). -/
def contentDeltaEvs (r : Resp) : List SEv :=
  (r.contentParts.filter (fun p => p ≠ "")).map SEv.contentDelta

/-- Thinking delta events of one streamed response. -/
def thinkingDeltaEvs (r : Resp) : List SEv :=
  if r.thinking = "" then [] else [SEv.thinkingDelta r.thinking]

/-- Tool execution step of the stream (lines 2429-2435): status event,
tool message, unconditional `_sent_image` update on `send_image`. -/
def streamToolStep (env : Env) (st : StreamSt) (tc : RawTC) : StreamSt :=
  { st with
      events := st.events ++ [SEv.statusEv ("Tool: " ++ tc.name)]
      msgs := st.msgs ++ [toolMsg env tc]
      sent := st.sent || (tc.name == "send_image") }

/-- Stuck-prevention nudge of the stream (lines 2366-2383): blocking
call, delta emitted only for non-empty content; an exhausted script
models the call raising, which is caught and ignored. -/
def streamNudge (st : StreamSt) : StreamSt :=
  match st.script with
  | [] => { st with msgs := st.msgs ++ [userMsg nudgeText] }
  | r :: rest =>
      { st with
          msgs := st.msgs ++ [userMsg nudgeText] ++ [assistantPlain r]
          script := rest
          totalThinking := st.totalThinking ++ r.thinking
          totalContent := st.totalContent ++ Resp.content r
          events := st.events
            ++ (if Resp.content r ≠ "" then [SEv.contentDelta (Resp.content r)] else []) }

/-- The stream's stuck-prevention guard (line 2368). -/
def streamNudgeIfEmpty (st : StreamSt) : StreamSt :=
  if pyStrip st.totalContent = "" && !st.sent then streamNudge st else st

/-- The assistant message recorded after the wrap-up call. -/
def wrapupAsstMsg (r : Resp) : Msg :=
  { role := "assistant", content := pyStrip (Resp.content r), thinking := r.thinking }

/-- Wrap-up nudge at cap exhaustion in the stream (lines 2439-2462):
the accumulated content is *replaced* by the wrap-up response when that
response is non-empty, and the replacement is emitted as one delta. -/
def streamWrapup (st : StreamSt) : StreamSt :=
  match st.script with
  | [] => { st with msgs := st.msgs ++ [userMsg wrapupText] }
  | r :: rest =>
      { st with
          msgs := st.msgs ++ [userMsg wrapupText] ++ [wrapupAsstMsg r]
          script := rest
          totalThinking := st.totalThinking ++ r.thinking
          totalContent := if pyStrip (Resp.content r) = "" then st.totalContent
                          else pyStrip (Resp.content r)
          events := st.events ++ (if pyStrip (Resp.content r) = "" then []
                    else [SEv.contentDelta (pyStrip (Resp.content r))]) }

/-- Terminal `done` event of the stream (lines 2403-2404 / 2487-2488):
content is suppressed when a `send_image` call was executed. -/
def streamFinishDone (hitCap : Bool) (st : StreamSt) : StreamOut :=
  { events := st.events ++ [SEv.doneEv (if st.sent then "" else pyStrip st.totalContent)
      (pyStrip st.totalThinking) false]
    msgs := st.msgs
    sent := st.sent
    cancelled := false
    errored := false
    hitCap := hitCap }

/-- Absorption of one streamed response (lines 2304-2353): pre-call
trim, delta events, accumulation. -/
def streamAbsorb (st : StreamSt) (r : Resp) (rest : List Resp) (trimmed : List Msg) : StreamSt :=
  { st with
      msgs := trimmed
      script := rest
      events := st.events ++ thinkingDeltaEvs r ++ contentDeltaEvs r
      totalContent := st.totalContent ++ Resp.content r
      totalThinking := st.totalThinking ++ r.thinking }

/-- The error `done` event of the stream (line 2349), yielded when the
adapter call raises after its retries. -/
def streamErrorOut (st : StreamSt) (trimmed : List Msg) : StreamOut :=
  { events := st.events ++ [SEv.doneEv st.totalContent st.totalThinking true]
    msgs := trimmed
    sent := st.sent
    cancelled := false
    errored := true
    hitCap := false }

/-- The assistant note closing a cancelled streamed turn. -/
def streamCancelNoteMsg (st : StreamSt) : Msg :=
  { role := "assistant", content := pyStrip (st.totalContent ++ cancelMarker) }

/-- The cancellation exit of the stream (lines 2415-2428): the marker
delta is emitted, the list is closed with an assistant note, the done
event carries the (possibly suppressed) total. -/
def streamCancelOut (st : StreamSt) : StreamOut :=
  { events := st.events ++ [SEv.contentDelta cancelMarker]
      ++ [SEv.doneEv (if st.sent then "" else pyStrip (st.totalContent ++ cancelMarker))
            (pyStrip st.totalThinking) false]
    msgs := st.msgs ++ [streamCancelNoteMsg st]
    sent := st.sent
    cancelled := true
    errored := false
    hitCap := false }

/-- The `while rounds < max_tool_rounds` loop of `chat_round_stream`
(lines 2286-2436) plus its post-loop wrap-up (lines 2439-2488).  The
stream extracts tool calls only from the accumulated native chunks (the
XML fallback never fires: the extraction input carries no content,
line 2358), and the stream never switches models. -/
def streamGo (env : Env) : Nat → Nat → StreamSt → StreamOut
  | _, 0, st =>
      streamFinishDone true (if !st.sent then streamWrapup st else st)
  | round, fuel + 1, st =>
      match st.script with
      | [] =>
          streamErrorOut st
            (trim_messages_to_fit env.systemPrompt env.toolsJson env.num_ctx st.msgs)
      | r :: rest =>
          let st1 := streamAbsorb st r rest
            (trim_messages_to_fit env.systemPrompt env.toolsJson env.num_ctx st.msgs)
          if r.toolCalls.isEmpty then
            streamFinishDone false
              (streamNudgeIfEmpty { st1 with msgs := st1.msgs ++ [assistantPlain r] })
          else
            let st2 := { st1 with
                events := st1.events ++ [SEv.toolCallEv (r.toolCalls.map (fun tc => tc.name))]
                msgs := st1.msgs ++ [assistantMsg r r.toolCalls] }
            match (if env.userId.isSome then env.cancelAt round else none) with
            | some _ => streamCancelOut st2
            | none => streamGo env (round + 1) fuel (r.toolCalls.foldl (streamToolStep env) st2)

/-- One full `chat_round_stream` turn on a compacted history. -/
def streamRun (env : Env) (cap : Nat) (history : List Msg) (userContent : String) : StreamOut :=
  streamGo env 0 cap
    { msgs := history ++ [userMsg userContent], totalContent := "", totalThinking := "",
      sent := false, script := env.script, events := [] }

/-- Concatenation of the `content` delta payloads of an event stream. -/
def deltasConcat (evs : List SEv) : String :=
  joinStr (evs.filterMap (fun e => match e with
    | SEv.contentDelta s => some s
    | _ => none))

/-! ## Scheduler job firing (`scheduler._run_scheduled_job`, lines 35-93)

The observable effects of one firing, in program order: the optional
shell command, the optional prompt run, the notification send, and the
one-shot self-deletion.  `_send_to_client` returns without sending when
the message is empty (notify.py is behind it; its own failures are
caught and do not affect the order). -/

inductive SchedAct where
  | execCmd (command : String)
  | runPrompt (fullPrompt : String)
  | sendMsg (message : String)
  | removeJob
deriving Repr, DecidableEq

structure SchedJobData where
  command : String := ""
  prompt : String := ""
  client : Option String := none
  once : Bool := false
deriving Repr, DecidableEq

/-- The autonomous-mode preamble (scheduler.py lines 66-72; abbreviated,
its text plays no role in any property). -/
def schedulePrefixText : String := "[SCHEDULED TASK - autonomous mode] "

/-- scheduler._send_to_client (lines 131-140): nothing is sent for an
empty message. -/
def send_to_client (message : String) : List SchedAct :=
  if message = "" then [] else [SchedAct.sendMsg message]

/-- Shell-command actions of a firing (scheduler.py lines 54-63). -/
def sched_cmd_acts (jd : SchedJobData) : List SchedAct :=
  if pyStrip jd.command ≠ "" then [SchedAct.execCmd (pyStrip jd.command)] else []

/-- The `cmd_output` string assembled from the shell result
(scheduler.py lines 58-60). -/
def sched_cmd_output (execResult : ExecResult) (jd : SchedJobData) : String :=
  if pyStrip jd.command ≠ "" then
    let out := pyStrip execResult.stdout
    if execResult.returncode ≠ 0 then
      out ++ "\n(exit " ++ toString execResult.returncode ++ "): " ++ pyStrip execResult.stderr
    else out
  else ""

/-- Prompt-run and notification actions of a firing (scheduler.py
lines 75-89): on a prompt job, run the loop and send its answer (or the
error text); on a command-only job with a client, send the command
output. -/
def sched_prompt_acts (execResult : ExecResult) (promptResult : Option String)
    (jd : SchedJobData) : List SchedAct :=
  let cmd_output := sched_cmd_output execResult jd
  if pyStrip jd.prompt ≠ "" then
    let fullPrompt := schedulePrefixText ++ pyStrip jd.prompt
        ++ (if cmd_output ≠ "" then "\n\nAusgabe des Befehls:\n" ++ cmd_output else "")
    match promptResult with
    | some resp => [SchedAct.runPrompt fullPrompt] ++ send_to_client resp
    | none => [SchedAct.runPrompt fullPrompt] ++ send_to_client "Schedule-Fehler: exception"
  else if pyStrip jd.command ≠ "" && jd.client.isSome then
    send_to_client (if cmd_output = "" then "(Keine Ausgabe)" else cmd_output)
  else []

/-- scheduler._run_scheduled_job (lines 35-93), with oracles for the
shell command result and the prompt run (`none` models `_run_prompt`
raising): the one-shot self-deletion (lines 91-93) is the final action,
after the notification send. -/
def run_scheduled_job (execResult : ExecResult) (promptResult : Option String)
    (jd : SchedJobData) : List SchedAct :=
  sched_cmd_acts jd ++ sched_prompt_acts execResult promptResult jd
    ++ (if jd.once then [SchedAct.removeJob] else [])

/-- Whether an action is a notification send. -/
def isSendAct : SchedAct → Bool
  | SchedAct.sendMsg _ => true
  | _ => false

/-! ## Authorization codes (`chat_auth.py`)

The persistent state (pending_codes.json / authorized.json) is modelled
as association lists; `time.time()` as an integer clock. -/

/-- CODE_VALIDITY_SECONDS (chat_auth.py line 17). -/
def CODE_VALIDITY_SECONDS : Int := 1800

structure CodeEntry where
  platform : String
  user_id : String
  expires_at : Int
deriving Repr, DecidableEq

structure AuthState where
  pending : List (String × CodeEntry)
  authorized : List (String × String)
deriving Repr, DecidableEq

/-- The code alphabet of `generate_code` (chat_auth.py line 139). -/
def AUTH_CHARS : List Char := "ABCDEFGHJKLMNPQRSTUVWXYZ23456789".toList

/-- chat_auth._pending_data: load and drop expired entries. -/
def prune_pending (now : Int) (l : List (String × CodeEntry)) : List (String × CodeEntry) :=
  l.filter (fun p => p.2.expires_at > now)

/-- chat_auth.generate_code (lines 137-148), with the freshly drawn code
supplied as a parameter: prune expired codes, store the new entry with a
30-minute expiry. -/
def generate_code_model (now : Int) (platform user_id code : String)
    (st : AuthState) : AuthState :=
  let data := prune_pending now st.pending
  let key := upperStr code
  { st with pending := (data.filter (fun p => p.1 ≠ key))
              ++ [(key, { platform := lowerStr (pyStrip platform),
                          user_id := pyStrip user_id,
                          expires_at := now + CODE_VALIDITY_SECONDS })] }

/-- chat_auth._normalize_code (lines 151-159): strip a recognised
command word from the front (first match wins), then keep only
code-alphabet characters of the uppercased rest. -/
def normalize_code (raw : String) : String :=
  let r := pyStrip raw
  let low := lowerStr r
  let stripped :=
    if strStartsWith low "auth matrix" then pyStrip (strDrop r 11)
    else if strStartsWith low "auth discord" then pyStrip (strDrop r 12)
    else if strStartsWith low "auth" then pyStrip (strDrop r 4)
    else if strStartsWith low "/auth matrix" then pyStrip (strDrop r 12)
    else if strStartsWith low "/auth discord" then pyStrip (strDrop r 13)
    else if strStartsWith low "/auth" then pyStrip (strDrop r 5)
    else if strStartsWith low "matrix" then pyStrip (strDrop r 6)
    else if strStartsWith low "discord" then pyStrip (strDrop r 7)
    else r
  String.mk ((upperStr stripped).toList.filter (fun c => AUTH_CHARS.contains c))

/-- chat_auth.add_authorized (lines 193-207). -/
def add_authorized_model (platform user_id : String)
    (l : List (String × String)) : List (String × String) :=
  let plat := lowerStr (pyStrip platform)
  let uid := pyStrip user_id
  if plat = "" || uid = "" then l
  else if l.contains (plat, uid) then l
  else l ++ [(plat, uid)]

/-- chat_auth.consume_code (lines 162-190): normalise the input, pop the
entry, fail on unknown or expired codes or blank fields, otherwise
authorize the recorded identity and return it. -/
def consume_code_model (now : Int) (input : String) (st : AuthState) :
    Option (String × String) × AuthState :=
  let code := normalize_code input
  if code = "" then (none, st)
  else
    match st.pending.find? (fun p => p.1 = code) with
    | none => (none, st)
    | some entry =>
        let data := st.pending.filter (fun p => p.1 ≠ code)
        if now > entry.2.expires_at then (none, { st with pending := data })
        else
          let platform := pyStrip entry.2.platform
          let user_id := pyStrip entry.2.user_id
          if platform = "" || user_id = "" then (none, { st with pending := data })
          else (some (platform, user_id),
                { pending := data,
                  authorized := add_authorized_model platform user_id st.authorized })

/-! ## Turn entry (`chat_loop.handle_user_input`, lines 2687-2701)

For an ordinary message with a bound chat context, `handle_user_input`
calls `clear_cancel(user_id)` and then enters `chat_round`.  The
cancellation registry for that user is modelled as: an initial flag
value, overwritten by the latest `request_cancel` issued during the
turn (`ext r` is a request arriving just before the check of round `r`). -/

/-- Latest externally requested cancel level among checks `0..r`. -/
def latestExt (ext : Nat → Option String) : Nat → Option String
  | 0 => ext 0
  | r + 1 =>
      match ext (r + 1) with
      | some l => some l
      | none => latestExt ext r

/-- Registry value observed at the check of round `r`, given the flag
value `f0` at the start of the loop. -/
def registryFlagAt (f0 : Option String) (ext : Nat → Option String) (r : Nat) : Option String :=
  match latestExt ext r with
  | some l => some l
  | none => f0

/-- Loop environment of a turn before the cancellation oracle is fixed. -/
structure TurnEnv where
  script : List Resp
  runTool : RawTC → String
  xmlCalls : String → List RawTC
  userId : Option String
  systemPrompt : String := ""
  toolsJson : String := ""
  num_ctx : Nat := 4096

/-- Fixes the cancellation oracle of a turn environment. -/
def envWithCancel (e : TurnEnv) (cancelAt : Nat → Option String) : Env :=
  { script := e.script, runTool := e.runTool, xmlCalls := e.xmlCalls,
    cancelAt := cancelAt, userId := e.userId,
    systemPrompt := e.systemPrompt, toolsJson := e.toolsJson, num_ctx := e.num_ctx }

/-- The ordinary-message path of `handle_user_input` with a bound chat
context: `clear_cancel` resets the user's registry entry to `none`
(chat_loop.py lines 2687-2691), and only then does the loop start, so
its checks observe `registryFlagAt none ext`, not
`registryFlagAt initialFlag ext`. -/
def handle_user_turn (_initialFlag : Option String) (ext : Nat → Option String)
    (e : TurnEnv) (cap : Nat) (history : List Msg) (userContent : String) : Option RoundOut :=
  chatRoundAttempt (envWithCancel e (registryFlagAt none ext)) cap history userContent

/-! ## Concrete scenario data used by counterexamples and witnesses -/

/-- Concrete message used by the C6 scenario. -/
def c6msg (role : String) : Msg := { role := role, content := String.mk (List.replicate 60 'a') }

/-- Concrete over-budget six-message history for the C6 scenario. -/
def c6msgs : List Msg :=
  [c6msg "user", c6msg "assistant", c6msg "user", c6msg "assistant", c6msg "user", c6msg "assistant"]

/-- Tool-result oracle for the concrete scenarios: the `_run_tool`
result for a `send_image` call without an `image_path` argument
(chat_loop.py lines 926-929), a generic result otherwise. -/
def runToolOracleX : RawTC → String := fun tc =>
  if tc.name == "send_image" then "send_image requires image_path" else "ok"

/-- Scenario: the model declares an exec call and the user's
cancellation flag is set at the first round boundary. -/
def envCancelX : Env :=
  { script := [{ contentParts := ["Working on it."],
                 toolCalls := [{ name := "exec", args := "" }] }],
    runTool := runToolOracleX, xmlCalls := fun _ => [], cancelAt := fun _ => some "stop",
    userId := some "u" }

/-- Scenario: a send_image call with a missing image path (its result is
the error string), followed by a final text round. -/
def envSendImageX : Env :=
  { script := [{ contentParts := ["I sent the picture."],
                 toolCalls := [{ name := "send_image", args := "" }] },
               { contentParts := ["Done."] }],
    runTool := runToolOracleX, xmlCalls := fun _ => [], cancelAt := fun _ => none,
    userId := none }

/-- Scenario: a single plain text response. -/
def envPlainW : Env :=
  { script := [{ contentParts := ["hi"] }], runTool := runToolOracleX,
    xmlCalls := fun _ => [], cancelAt := fun _ => none, userId := none }

/-- Scenario: a streamed response whose content carries a trailing
space. -/
def envStreamX : Env :=
  { script := [{ contentParts := ["hello "] }], runTool := runToolOracleX,
    xmlCalls := fun _ => [], cancelAt := fun _ => none, userId := none }

/-- Scenario: a streamed tool round followed by a final text round. -/
def envStreamW : Env :=
  { script := [{ contentParts := ["All"], toolCalls := [{ name := "exec", args := "" }] },
               { contentParts := [" done."] }],
    runTool := runToolOracleX, xmlCalls := fun _ => [], cancelAt := fun _ => none,
    userId := none }

/-- Turn environment for the C10 witness. -/
def turnEnvW : TurnEnv :=
  { script := [{ contentParts := ["hi"] }], runTool := runToolOracleX,
    xmlCalls := fun _ => [], userId := some "u" }

/-! ## General helper lemmas -/

theorem strLenZero (s : String) : s.length = 0 ↔ s = "" := by
  cases s with
  | mk data =>
    simp only [String.length]
    constructor
    · intro h
      have : data = [] := List.length_eq_zero.mp h
      subst this; rfl
    · intro h
      have : data = [] := congrArg String.data h
      simp [this]

/-! ## Claim C1 — the exec tool call from the loop -/

/-- C1: for every invocation of the exec tool from `_run_tool`, the
call site `run_exec(cmd, cwd=…, extra_env=…)` (chat_loop.py line 890)
does not bind against `run_exec(command, timeout=60, cwd=None)`
(tools.py line 33): Python raises `TypeError` for the unexpected
keyword `extra_env` before the executor body runs, so no
returncode/stdout/stderr result string is ever produced and the
exception propagates out of `_run_tool`.  The executor body itself,
had the call bound, would indeed map a timeout to returncode −1 —
the claim describes `run_exec`'s own contract, which the call site
breaks. -/
theorem C1_exec_tool_call_raises (command : String) (outcome : SubprocessOutcome) :
    run_tool_exec command outcome =
      PyOutcome.raised "TypeError: run_exec() got an unexpected keyword argument extra_env"
    ∧ (run_exec_body SubprocessOutcome.timedOut).returncode = -1 :=
  ⟨rfl, rfl⟩

/-! ## Claim C7 — the token estimator -/

/-- C7 counterexample: `_estimate_tokens` returns 0 on the empty
string (chat_loop.py lines 317-318), not `max(1, ⌊0/3⌋) = 1` as the
claim states for every input "including the empty string". -/
theorem C7_counterexample :
    estimate_tokens "" = 0 ∧ estimate_tokens "" ≠ max 1 (("" : String).length / 3) := by
  constructor
  · rfl
  · decide

/-- C7 (amended): the per-message estimate equals
`max 1 (len(role+content+thinking+tool-call JSON) / 3)` whenever that
text is non-empty — in particular for every message with a non-empty
role — and the bare estimator returns `max 1 (len/3)` on non-empty
text but 0 (not 1) on the empty string. -/
theorem C7_estimate_tokens (m : Msg) (t : String) (hm : m.role ≠ "") (ht : t ≠ "") :
    message_tokens_estimate m = max 1 ((messageEstimateText m).length / 3)
    ∧ 1 ≤ message_tokens_estimate m
    ∧ estimate_tokens t = max 1 (t.length / 3)
    ∧ estimate_tokens "" = 0 := by
  have hrole : m.role.length ≠ 0 := fun h => hm ((strLenZero m.role).mp h)
  have hlen : (messageEstimateText m).length ≠ 0 := by
    simp only [messageEstimateText, String.length_append]
    omega
  have htl : t.length ≠ 0 := fun h => ht ((strLenZero t).mp h)
  refine ⟨?_, ?_, ?_, rfl⟩
  · simp [message_tokens_estimate, estimate_tokens, hlen]
  · simp [message_tokens_estimate, estimate_tokens, hlen]
  · simp [estimate_tokens, htl]

/-- Witness for C7_estimate_tokens at a concrete message and text. -/
theorem C7_estimate_tokens_witness :
    ({ role := "user", content := "hello" } : Msg).role ≠ ""
    ∧ message_tokens_estimate { role := "user", content := "hello" } =
        max 1 ((messageEstimateText { role := "user", content := "hello" }).length / 3) :=
  ⟨by decide,
   (C7_estimate_tokens { role := "user", content := "hello" } "x" (by decide) (by decide)).1⟩

/-! ## Claim C8 — one-shot scheduler jobs -/

theorem sched_send_no_remove (s : String) : SchedAct.removeJob ∉ send_to_client s := by
  unfold send_to_client
  split <;> simp

theorem sched_cmd_no_remove (jd : SchedJobData) : SchedAct.removeJob ∉ sched_cmd_acts jd := by
  unfold sched_cmd_acts
  split <;> simp

theorem sched_prompt_no_remove (execResult : ExecResult) (promptResult : Option String)
    (jd : SchedJobData) :
    SchedAct.removeJob ∉ sched_prompt_acts execResult promptResult jd := by
  unfold sched_prompt_acts
  cases promptResult with
  | none =>
      split
      · intro hmem
        rcases List.mem_append.mp hmem with h1 | h1
        · simp at h1
        · exact sched_send_no_remove _ h1
      · split
        · exact sched_send_no_remove _
        · simp
  | some r =>
      split
      · intro hmem
        rcases List.mem_append.mp hmem with h1 | h1
        · simp at h1
        · exact sched_send_no_remove _ h1
      · split
        · exact sched_send_no_remove _
        · simp

/-- C8 counterexample: a one-shot prompt job whose run produces the
answer `"ping"`.  The deletion of the job is the *last* action, i.e. it
does not precede the notification send as the claim states: the index of
`removeJob` in the action trace is not below the index of the send. -/
theorem C8_counterexample :
    run_scheduled_job ⟨"", "", 0⟩ (some "ping") { prompt := "say ping", once := true }
      = [SchedAct.runPrompt (schedulePrefixText ++ "say ping"),
         SchedAct.sendMsg "ping", SchedAct.removeJob]
    ∧ ¬ ((run_scheduled_job ⟨"", "", 0⟩ (some "ping") { prompt := "say ping", once := true }).findIdx
          (fun a => a == SchedAct.removeJob)
        < (run_scheduled_job ⟨"", "", 0⟩ (some "ping") { prompt := "say ping", once := true }).findIdx
            isSendAct) := by
  constructor
  · rfl
  · decide

/-- C8 (amended): for every firing of a one-shot scheduled job the
self-deletion from schedules.json is the final effect of the firing —
it happens *after* the notification send, not before it. -/
theorem C8_one_shot_delete (execResult : ExecResult) (promptResult : Option String)
    (jd : SchedJobData) (h : jd.once = true) :
    ∃ pre, run_scheduled_job execResult promptResult jd = pre ++ [SchedAct.removeJob]
      ∧ SchedAct.removeJob ∉ pre := by
  refine ⟨sched_cmd_acts jd ++ sched_prompt_acts execResult promptResult jd, ?_, ?_⟩
  · simp [run_scheduled_job, h]
  · intro hmem
    rcases List.mem_append.mp hmem with h1 | h1
    · exact sched_cmd_no_remove jd h1
    · exact sched_prompt_no_remove execResult promptResult jd h1

/-- Witness for C8_one_shot_delete at a concrete command job. -/
theorem C8_one_shot_delete_witness :
    ({ command := "ls", client := some "matrix", once := true } : SchedJobData).once = true
    ∧ ∃ pre, run_scheduled_job ⟨"out", "", 0⟩ none
          { command := "ls", client := some "matrix", once := true }
        = pre ++ [SchedAct.removeJob] ∧ SchedAct.removeJob ∉ pre :=
  ⟨rfl, C8_one_shot_delete ⟨"out", "", 0⟩ none _ rfl⟩

/-! ## Claim C9 — authorization codes -/

/-- C9: the claim — every live code is redeemable exactly once within
its 30-minute TTL — is the documented contract, but `_normalize_code`
(chat_auth.py lines 151-159) strips a leading "auth" from the submitted
code *itself*.  A genuinely generated code may begin with "AUTH" (all
four characters are in the code alphabet), and such a code is looked up
as its mangled remainder: its first redemption, 60 seconds after
issuance, fails, and the entry is left pending forever. -/
theorem C9_auth_code_never_redeemable :
    normalize_code "AUTHA234" = "A234"
    ∧ (consume_code_model 1060 "AUTHA234"
        (generate_code_model 1000 "matrix" "@alice:example.org" "AUTHA234"
          { pending := [], authorized := [] })).1 = none
    ∧ ((generate_code_model 1000 "matrix" "@alice:example.org" "AUTHA234"
          { pending := [], authorized := [] }).pending.find?
        (fun p => p.1 = "AUTHA234")).isSome = true
    ∧ (1060 : Int) ≤ 1000 + CODE_VALIDITY_SECONDS := by
  refine ⟨?_, ?_, ?_, ?_⟩ <;> decide

/-! ## Claim C6 — smart compaction -/

theorem tokens_cons (m : Msg) (l : List Msg) :
    messages_token_estimate (m :: l) = message_tokens_estimate m + messages_token_estimate l := by
  simp [messages_token_estimate]

theorem tokens_reverse (l : List Msg) :
    messages_token_estimate l.reverse = messages_token_estimate l := by
  simp [messages_token_estimate, List.map_reverse, List.sum_reverse]

theorem take_recent_go_prefix (r : Nat) (l : List Msg) (rt : Nat) :
    ∃ n, n ≤ l.length ∧ take_recent_go r rt l = l.take n := by
  induction l generalizing rt with
  | nil => exact ⟨0, Nat.le_refl 0, rfl⟩
  | cons m rest ih =>
      unfold take_recent_go
      split
      · exact ⟨0, Nat.zero_le _, rfl⟩
      · obtain ⟨n, hn, heq⟩ := ih (rt + message_tokens_estimate m)
        exact ⟨n + 1, by simpa using Nat.succ_le_succ hn, by simp [heq]⟩

theorem take_recent_prefix (r : Nat) (l : List Msg) :
    ∃ n, n ≤ l.length ∧ take_recent r l = l.take n := by
  cases l with
  | nil => exact ⟨0, Nat.le_refl 0, rfl⟩
  | cons m rest =>
      obtain ⟨n, hn, heq⟩ := take_recent_go_prefix r rest (message_tokens_estimate m)
      exact ⟨n + 1, by simpa using Nat.succ_le_succ hn, by simp [take_recent, heq]⟩

theorem compact_recent_suffix (num_ctx : Nat) (msgs : List Msg) :
    msgs.drop (msgs.length - (compact_recent num_ctx msgs).length)
      = compact_recent num_ctx msgs := by
  obtain ⟨n, hn, heq⟩ := take_recent_prefix (compact_reserve num_ctx) msgs.reverse
  have hrev : compact_recent num_ctx msgs = msgs.drop (msgs.length - n) := by
    unfold compact_recent
    rw [heq, List.reverse_take, List.reverse_reverse, List.length_reverse]
  have hlen : (compact_recent num_ctx msgs).length = n := by
    rw [hrev, List.length_drop]
    simp at hn
    omega
  rw [hlen, hrev]

theorem take_recent_go_empty (r rt : Nat) (l : List Msg) (h : r < rt) :
    take_recent_go r rt l = [] := by
  cases l with
  | nil => rfl
  | cons m rest =>
      unfold take_recent_go
      rw [if_pos]
      omega

theorem take_recent_go_bound (r : Nat) (l : List Msg) (rt : Nat) (h : rt ≤ r) :
    rt + messages_token_estimate (take_recent_go r rt l) ≤ r := by
  induction l generalizing rt with
  | nil => simpa [take_recent_go, messages_token_estimate]
  | cons m rest ih =>
      unfold take_recent_go
      split
      · simpa [messages_token_estimate]
      · rename_i hle
        rw [tokens_cons]
        have := ih (rt + message_tokens_estimate m) (by omega)
        omega

theorem take_recent_bound (r : Nat) (l : List Msg) :
    messages_token_estimate (take_recent r l) ≤ r ∨ (take_recent r l).length = 1 := by
  cases l with
  | nil => left; simp [take_recent, messages_token_estimate]
  | cons m rest =>
      by_cases hm : message_tokens_estimate m ≤ r
      · left
        have := take_recent_go_bound r rest (message_tokens_estimate m) hm
        rw [take_recent, tokens_cons]
        omega
      · right
        rw [take_recent, take_recent_go_empty r _ rest (by omega)]
        rfl

theorem compact_recent_bound (num_ctx : Nat) (msgs : List Msg) :
    messages_token_estimate (compact_recent num_ctx msgs) ≤ compact_reserve num_ctx
    ∨ (compact_recent num_ctx msgs).length = 1 := by
  have h := take_recent_bound (compact_reserve num_ctx) msgs.reverse
  unfold compact_recent
  rcases h with h | h
  · left; rwa [tokens_reverse]
  · right; simpa using h

theorem strStartsWith_append (p q : String) : strStartsWith (p ++ q) p = true := by
  have hdata : (p ++ q).toList = p.toList ++ q.toList := by
    simp [String.toList, String.data_append]
  simp [strStartsWith, hdata, List.take_left]

/-- C6 counterexample: with `num_ctx = 100`, quota 0.85 and six
over-budget messages, compaction does run and does produce a single
synthetic system message followed by the retained suffix — but its
content prefix is the German
`[Zusammenfassung des bisherigen Gesprächs]` (chat_loop.py line 529),
not the literal `[summary of prior conversation]` stated by the claim. -/
theorem C6_counterexample :
    needs_compacting 85 "" "" c6msgs 100 = true
    ∧ (compact_history 85 "" "" (fun _ => some "sum") 100 c6msgs).head?.map Msg.content
        = some (summaryNotePrefix ++ "\n" ++ "sum")
    ∧ strStartsWith
        ((compact_history 85 "" "" (fun _ => some "sum") 100 c6msgs).headD default).content
        "[summary of prior conversation]" = false := by
  refine ⟨?_, ?_, ?_⟩ <;> decide

/-- C6 (amended): when compaction runs (`_needs_compacting` true), the
older part is non-empty and formats to a non-empty transcript, and the
summariser returns non-empty output, the result is the single synthetic
system message — whose content is prefixed
`[Zusammenfassung des bisherigen Gesprächs]` — followed by the retained
newest messages, which form a suffix of the original list whose
cumulative token estimate is at most ⌊num_ctx × 0.15⌋ unless that
suffix is the single newest message (the newest message is always
retained, even alone above the reserve).  When the summariser call
fails, the hard trim (dropping oldest messages) is applied instead. -/
theorem C6_compaction (quotaPct : Nat) (sys tools : String)
    (summarise : String → Option String) (num_ctx : Nat) (msgs : List Msg)
    (hneed : needs_compacting quotaPct sys tools msgs num_ctx = true)
    (hpos : 0 < messages_token_estimate msgs)
    (hold : compact_old num_ctx msgs ≠ [])
    (htr : pyStrip (format_messages_for_summary (compact_old num_ctx msgs)) ≠ "") :
    (∀ raw, summarise (format_messages_for_summary (compact_old num_ctx msgs)) = some raw →
        pyStrip raw ≠ "" →
        compact_history quotaPct sys tools summarise num_ctx msgs
          = compact_summary_msg (pyStrip raw) :: compact_recent num_ctx msgs
        ∧ strStartsWith (compact_summary_msg (pyStrip raw)).content summaryNotePrefix = true
        ∧ msgs.drop (msgs.length - (compact_recent num_ctx msgs).length)
            = compact_recent num_ctx msgs
        ∧ (messages_token_estimate (compact_recent num_ctx msgs) ≤ compact_reserve num_ctx
            ∨ (compact_recent num_ctx msgs).length = 1))
    ∧ (summarise (format_messages_for_summary (compact_old num_ctx msgs)) = none →
        compact_history quotaPct sys tools summarise num_ctx msgs
          = hard_trim (context_budget quotaPct num_ctx
                - (estimate_tokens sys + estimate_tokens tools)) msgs) := by
  have hover : ¬ messages_token_estimate msgs
      ≤ context_budget quotaPct num_ctx - (estimate_tokens sys + estimate_tokens tools) := by
    unfold needs_compacting at hneed
    split at hneed
    · exact absurd hneed (by simp)
    · simp only [decide_eq_true_eq] at hneed
      omega
  have hold' : (compact_old num_ctx msgs).isEmpty = false := by
    simpa [List.isEmpty_iff] using hold
  constructor
  · intro raw hsum hraw
    refine ⟨?_, ?_, compact_recent_suffix num_ctx msgs, compact_recent_bound num_ctx msgs⟩
    · unfold compact_history
      rw [if_neg hover]
      simp only [hold', Bool.false_eq_true, if_false, if_neg htr, hsum, if_neg hraw]
    · have hassoc : (compact_summary_msg (pyStrip raw)).content
          = summaryNotePrefix ++ ("\n" ++ pyStrip raw) := by
        simp [compact_summary_msg, String.append_assoc]
      rw [hassoc]
      exact strStartsWith_append _ _
  · intro hsum
    unfold compact_history
    rw [if_neg hover]
    simp only [hold', Bool.false_eq_true, if_false, if_neg htr, hsum]

/-- Witness for C6_compaction at the concrete over-budget history. -/
theorem C6_compaction_witness :
    compact_history 85 "" "" (fun _ => some "recap") 100 c6msgs
      = compact_summary_msg (pyStrip "recap") :: compact_recent 100 c6msgs
    ∧ c6msgs.drop (c6msgs.length - (compact_recent 100 c6msgs).length)
        = compact_recent 100 c6msgs := by
  have h := (C6_compaction 85 "" "" (fun _ => some "recap") 100 c6msgs
      (by decide) (by decide) (by decide) (by decide)).1 "recap" rfl (by decide)
  exact ⟨h.1, h.2.2.1⟩

/-! ## Pairing-automaton lemmas (for claim C2) -/

theorem tpRun_append (s : TPState) (l1 l2 : List Msg) :
    tpRun s (l1 ++ l2) = tpRun (tpRun s l1) l2 := by
  simp [tpRun, List.foldl_append]

theorem tpRun_bad (l : List Msg) : tpRun .bad l = .bad := by
  induction l with
  | nil => rfl
  | cons m rest ih => simpa [tpRun, tpStep] using ih

theorem tpOk_master (l : List Msg) :
    ∀ s, tpOk (tpRun s l) = true → tpOk (tpRun .clean l) = true := by
  induction l with
  | nil => intro s h; rfl
  | cons m rest ih =>
      intro s h
      have hstep : tpRun s (m :: rest) = tpRun (tpStep s m) rest := rfl
      rw [hstep] at h
      show tpOk (tpRun (tpStep .clean m) rest) = true
      match s with
      | .clean => exact h
      | .bad =>
          rw [show tpStep TPState.bad m = TPState.bad from rfl, tpRun_bad] at h
          exact absurd h (by simp [tpOk])
      | .pending [] => exact h
      | .afterBatch =>
          by_cases htool : (m.role == "tool") = true
          · rw [show tpStep TPState.afterBatch m = TPState.bad by simp [tpStep, htool],
                tpRun_bad] at h
            exact absurd h (by simp [tpOk])
          · have : tpStep TPState.afterBatch m = tpOpen m := by
              simp [tpStep, htool]
            rw [this] at h
            exact h
      | .pending (tc :: tcs) =>
          by_cases hguard : (m.role == "tool" && m.toolName == tc.name) = true
          · have hs' : tpStep (TPState.pending (tc :: tcs)) m
                = (if tcs.isEmpty then TPState.afterBatch else TPState.pending tcs) := by
              simp only [tpStep]
              rw [if_pos hguard]
            rw [hs'] at h
            have hrole : (m.role == "assistant") = false := by
              have hpair := (Bool.and_eq_true _ _).mp hguard
              have hr : m.role = "tool" := eq_of_beq hpair.1
              simp [hr]
            have hclean : tpStep TPState.clean m = TPState.clean := by
              simp [tpStep, tpOpen, hrole]
            rw [hclean]
            split at h
            · exact ih _ h
            · exact ih _ h
          · have hs' : tpStep (TPState.pending (tc :: tcs)) m = TPState.bad := by
              simp only [tpStep]
              rw [if_neg hguard]
            rw [hs', tpRun_bad] at h
            exact absurd h (by simp [tpOk])

theorem toolPairing_cons (m : Msg) (l : List Msg) :
    toolPairing (m :: l) = true → toolPairing l = true := by
  intro h
  exact tpOk_master l (tpStep .clean m) h

theorem toolPairing_drop (l : List Msg) (k : Nat) :
    toolPairing l = true → toolPairing (l.drop k) = true := by
  induction k generalizing l with
  | zero => intro h; simpa using h
  | succ k ih =>
      intro h
      cases l with
      | nil => simpa using h
      | cons m rest => exact ih rest (toolPairing_cons m rest h)

theorem hard_trim_drop (b : Nat) (l : List Msg) :
    ∃ k, k ≤ l.length ∧ hard_trim b l = l.drop k := by
  induction l with
  | nil => exact ⟨0, Nat.le_refl 0, rfl⟩
  | cons m rest ih =>
      unfold hard_trim
      split
      · exact ⟨0, Nat.zero_le _, rfl⟩
      · obtain ⟨k, hk, heq⟩ := ih
        exact ⟨k + 1, by simpa using Nat.succ_le_succ hk, by simpa using heq⟩

theorem splitLast_eq (l : List Msg) :
    ∀ h c, splitLast l = some (h, c) → l = h ++ [c] := by
  induction l with
  | nil => intro h c hsp; simp [splitLast] at hsp
  | cons m rest ih =>
      intro h c hsp
      cases rest with
      | nil =>
          simp [splitLast] at hsp
          simp [hsp.1.symm, hsp.2.symm]
      | cons n rest' =>
          simp only [splitLast, Option.map_eq_some'] at hsp
          obtain ⟨⟨h', c'⟩, hsp', heq⟩ := hsp
          cases heq
          simpa using ih h' c' hsp'

theorem splitLast_none (l : List Msg) (h : splitLast l = none) : l = [] := by
  cases l with
  | nil => rfl
  | cons m rest =>
      cases rest with
      | nil => simp [splitLast] at h
      | cons n rest' =>
          simp only [splitLast, Option.map_eq_none'] at h
          exact absurd (splitLast_none (n :: rest') h) (by simp)

theorem trim_drop (sp tj : String) (n : Nat) (msgs : List Msg) :
    ∃ k, trim_messages_to_fit sp tj n msgs = msgs.drop k := by
  unfold trim_messages_to_fit
  split
  next hsp =>
      rw [splitLast_none msgs hsp]
      exact ⟨0, rfl⟩
  next h c hsp =>
      have hmsgs : msgs = h ++ [c] := splitLast_eq msgs h c hsp
      split
      · exact ⟨0, rfl⟩
      · obtain ⟨k, hk, heq⟩ := hard_trim_drop (n - 1024 - estimate_tokens sp
            - estimate_tokens tj - message_tokens_estimate c) h
        refine ⟨k, ?_⟩
        rw [heq, hmsgs, List.drop_append_of_le_length hk]

theorem trim_pairing (sp tj : String) (n : Nat) (msgs : List Msg)
    (h : toolPairing msgs = true) :
    toolPairing (trim_messages_to_fit sp tj n msgs) = true := by
  obtain ⟨k, heq⟩ := trim_drop sp tj n msgs
  rw [heq]
  exact toolPairing_drop msgs k h

theorem toolPairing_append_nonbatch (l : List Msg) (m : Msg)
    (h : toolPairing l = true)
    (htool : (m.role == "tool") = false)
    (hbatch : (m.role == "assistant" && !m.toolCalls.isEmpty) = false) :
    toolPairing (l ++ [m]) = true := by
  unfold toolPairing at h ⊢
  rw [tpRun_append]
  have hopen : tpOpen m = TPState.clean := by simp [tpOpen, hbatch]
  match hrun : tpRun TPState.clean l with
  | .clean => simp [tpRun, tpStep, hopen, tpOk]
  | .afterBatch => simp [tpRun, tpStep, htool, hopen, tpOk]
  | .bad => rw [hrun] at h; exact absurd h (by simp [tpOk])
  | .pending tcs =>
      rw [hrun] at h
      exact absurd h (by simp [tpOk])

theorem toolMsg_step_clean (env : Env) (tc : RawTC) :
    tpStep TPState.clean (toolMsg env tc) = TPState.clean := by
  simp [tpStep, tpOpen, toolMsg]

theorem tpRun_toolMsgs_clean (env : Env) (tcs : List RawTC) :
    tpRun TPState.clean (tcs.map (toolMsg env)) = TPState.clean := by
  induction tcs with
  | nil => rfl
  | cons tc rest ih =>
      show tpRun (tpStep TPState.clean (toolMsg env tc)) (rest.map (toolMsg env)) = _
      rw [toolMsg_step_clean]
      exact ih

theorem tpRun_pending_toolMsgs (env : Env) (tcs : List RawTC) (tc : RawTC) :
    tpRun (TPState.pending (tc :: tcs)) ((tc :: tcs).map (toolMsg env)) = TPState.afterBatch := by
  induction tcs generalizing tc with
  | nil =>
      show tpRun (tpStep (TPState.pending [tc]) (toolMsg env tc)) [] = _
      have hstep : tpStep (TPState.pending [tc]) (toolMsg env tc) = TPState.afterBatch := by
        simp [tpStep, toolMsg]
      rw [hstep]
      rfl
  | cons tc2 rest ih =>
      show tpRun (tpStep (TPState.pending (tc :: tc2 :: rest)) (toolMsg env tc))
        ((tc2 :: rest).map (toolMsg env)) = _
      have hstep : tpStep (TPState.pending (tc :: tc2 :: rest)) (toolMsg env tc)
          = TPState.pending (tc2 :: rest) := by
        simp [tpStep, toolMsg]
      rw [hstep]
      exact ih tc2

/-- The tool-execution fold of one round of `chat_round`, characterised
componentwise. -/
theorem toolFold (env : Env) (tcs : List RawTC) (st : LoopSt) :
    tcs.foldl (toolStep env) st =
      { st with msgs := st.msgs ++ tcs.map (toolMsg env),
                trace := st.trace ++ tcs.map (fun tc => Act.toolExec tc.name),
                sent := st.sent || tcs.any (fun tc => tc.name == "send_image") } := by
  induction tcs generalizing st with
  | nil => simp
  | cons tc rest ih =>
      show rest.foldl (toolStep env) (toolStep env st tc) = _
      rw [ih]
      simp [toolStep, Bool.or_assoc]

theorem toolPairing_append_batch (env : Env) (l : List Msg) (r : Resp)
    (h : toolPairing l = true) :
    toolPairing (l ++ [assistantMsg r r.toolCalls]
      ++ (extract_tool_calls env r).map (toolMsg env)) = true := by
  unfold toolPairing at h ⊢
  rw [List.append_assoc, tpRun_append]
  show tpOk (tpRun (tpRun TPState.clean l)
    ([assistantMsg r r.toolCalls] ++ (extract_tool_calls env r).map (toolMsg env))) = true
  rw [show ([assistantMsg r r.toolCalls] ++ (extract_tool_calls env r).map (toolMsg env))
      = [assistantMsg r r.toolCalls] ++ (extract_tool_calls env r).map (toolMsg env) from rfl,
    tpRun_append]
  show tpOk (tpRun (tpStep (tpRun TPState.clean l) (assistantMsg r r.toolCalls))
    ((extract_tool_calls env r).map (toolMsg env))) = true
  have hgood : tpRun TPState.clean l = TPState.clean
      ∨ tpRun TPState.clean l = TPState.afterBatch := by
    match hrun : tpRun TPState.clean l with
    | .clean => exact Or.inl rfl
    | .afterBatch => exact Or.inr rfl
    | .bad => rw [hrun] at h; exact absurd h (by simp [tpOk])
    | .pending tcs => rw [hrun] at h; exact absurd h (by simp [tpOk])
  have hstep : tpStep (tpRun TPState.clean l) (assistantMsg r r.toolCalls)
      = tpOpen (assistantMsg r r.toolCalls) := by
    rcases hgood with hg | hg <;> rw [hg] <;> simp [tpStep, assistantMsg]
  rw [hstep]
  by_cases hnat : r.toolCalls.isEmpty = true
  · have hopen : tpOpen (assistantMsg r r.toolCalls) = TPState.clean := by
      simp [tpOpen, assistantMsg, hnat]
    have hx : extract_tool_calls env r = env.xmlCalls (Resp.content r) := by
      simp [extract_tool_calls, hnat]
    rw [hopen, hx, tpRun_toolMsgs_clean]
    rfl
  · have hx : extract_tool_calls env r = r.toolCalls := by
      simp [extract_tool_calls, hnat]
    match htcs : r.toolCalls with
    | [] => simp [htcs] at hnat
    | tc :: tcs =>
        have hopen : tpOpen (assistantMsg r (tc :: tcs)) = TPState.pending (tc :: tcs) := by
          simp [tpOpen, assistantMsg]
        rw [hopen, hx, htcs, tpRun_pending_toolMsgs]
        rfl

/-! ## Post-loop and loop lemmas -/

theorem pyStrip_empty : pyStrip "" = "" := rfl

theorem wrapupStep_sent (st : LoopSt) : (wrapupStep st).sent = st.sent := by
  unfold wrapupStep
  split <;> rfl

theorem nudgeStep_sent (st : LoopSt) : (nudgeStep st).sent = st.sent := by
  unfold nudgeStep
  split <;> rfl

theorem wrapupStep_pairing (st : LoopSt) (h : toolPairing st.msgs = true) :
    toolPairing (wrapupStep st).msgs = true := by
  unfold wrapupStep
  split
  · exact toolPairing_append_nonbatch _ _ h (by decide) (by decide)
  · exact toolPairing_append_nonbatch _ _
      (toolPairing_append_nonbatch _ _ h (by decide) (by decide)) (by rfl) (by simp)

theorem nudgeStep_pairing (st : LoopSt) (h : toolPairing st.msgs = true) :
    toolPairing (nudgeStep st).msgs = true := by
  unfold nudgeStep
  split
  · exact toolPairing_append_nonbatch _ _ h (by decide) (by decide)
  · next r rest =>
      refine toolPairing_append_nonbatch _ _
        (toolPairing_append_nonbatch _ _ h (by decide) (by decide)) ?_ ?_
      · rfl
      · simp [assistantPlain]

theorem wrapupStep_trace (st : LoopSt) :
    (wrapupStep st).trace = st.trace ∨ (wrapupStep st).trace = st.trace ++ [Act.modelCall] := by
  unfold wrapupStep
  split
  · exact Or.inl rfl
  · exact Or.inr rfl

theorem nudgeStep_trace (st : LoopSt) :
    (nudgeStep st).trace = st.trace ∨ (nudgeStep st).trace = st.trace ++ [Act.modelCall] := by
  unfold nudgeStep
  split
  · exact Or.inl rfl
  · exact Or.inr rfl

theorem finishRound_cancelled (b : Bool) (st : LoopSt) :
    (finishRound b st).cancelled = false := rfl

theorem finishRound_sent (b : Bool) (st : LoopSt) :
    (finishRound b st).sentImage = st.sent := by
  show (if b && !st.sent then wrapupStep st
        else if pyStrip st.totalContent = "" && !st.sent then nudgeStep st else st).sent = st.sent
  split
  · exact wrapupStep_sent st
  · split
    · exact nudgeStep_sent st
    · rfl

theorem finishRound_pairing (b : Bool) (st : LoopSt) (h : toolPairing st.msgs = true) :
    toolPairing (finishRound b st).msgs = true := by
  show toolPairing (if b && !st.sent then wrapupStep st
        else if pyStrip st.totalContent = "" && !st.sent then nudgeStep st else st).msgs = true
  split
  · exact wrapupStep_pairing st h
  · split
    · exact nudgeStep_pairing st h
    · exact h

theorem finishRound_trace (b : Bool) (st : LoopSt) :
    (finishRound b st).trace = st.trace
    ∨ (finishRound b st).trace = st.trace ++ [Act.modelCall] := by
  have heq : (finishRound b st).trace = (if b && !st.sent then wrapupStep st
      else if pyStrip st.totalContent = "" && !st.sent then nudgeStep st else st).trace := rfl
  rw [heq]
  split
  · exact wrapupStep_trace st
  · split
    · exact nudgeStep_trace st
    · exact Or.inl rfl

theorem finishRound_sendExec_mem (b : Bool) (st : LoopSt) :
    (Act.toolExec "send_image" ∈ (finishRound b st).trace
      ↔ Act.toolExec "send_image" ∈ st.trace) := by
  rcases finishRound_trace b st with h | h <;> rw [h] <;> simp

theorem finishRound_content_sent (b : Bool) (st : LoopSt) (h : st.sent = true) :
    (finishRound b st).content = "" := by
  have hst : (if b && !st.sent then wrapupStep st
      else if pyStrip st.totalContent = "" && !st.sent then nudgeStep st else st) = st := by
    rw [if_neg (by simp [h]), if_neg (by simp [h])]
  show pyStrip (if (if b && !st.sent then wrapupStep st
      else if pyStrip st.totalContent = "" && !st.sent then nudgeStep st else st).sent
        && pyStrip (if b && !st.sent then wrapupStep st
      else if pyStrip st.totalContent = "" && !st.sent then nudgeStep st else st).totalContent ≠ ""
      then ""
      else (if b && !st.sent then wrapupStep st
      else if pyStrip st.totalContent = "" && !st.sent then nudgeStep st else st).totalContent) = ""
  rw [hst]
  by_cases hc : pyStrip st.totalContent = ""
  · rw [if_neg (by simp [hc])]
    exact hc
  · rw [if_pos (by simp [h, hc])]
    exact pyStrip_empty

theorem runLoop_pairing (env : Env) (fuel : Nat) :
    ∀ round st res, toolPairing st.msgs = true →
      runLoop env round fuel st = some res → res.cancelled = false →
      toolPairing res.msgs = true := by
  induction fuel with
  | zero =>
      intro round st res h hrun _
      have : res = finishRound true st := by
        simpa [runLoop] using hrun.symm
      rw [this]
      exact finishRound_pairing true st h
  | succ fuel ih =>
      intro round st res h hrun hc
      rw [runLoop] at hrun
      match hscript : st.script with
      | [] => rw [hscript] at hrun; exact absurd hrun (by simp)
      | r :: rest =>
          rw [hscript] at hrun
          simp only [] at hrun
          have htrim : toolPairing (trim_messages_to_fit env.systemPrompt env.toolsJson
              env.num_ctx st.msgs) = true :=
            trim_pairing _ _ _ _ h
          by_cases hempty : (extract_tool_calls env r).isEmpty = true
          · rw [if_pos hempty] at hrun
            have hres : res = finishRound false { roundAbsorb st r rest
                (trim_messages_to_fit env.systemPrompt env.toolsJson env.num_ctx st.msgs) with
                  msgs := (roundAbsorb st r rest (trim_messages_to_fit env.systemPrompt
                    env.toolsJson env.num_ctx st.msgs)).msgs ++ [assistantPlain r] } := by
              simpa using hrun.symm
            rw [hres]
            apply finishRound_pairing
            exact toolPairing_append_nonbatch _ _ htrim (by rfl) (by simp [assistantPlain])
          · rw [if_neg hempty] at hrun
            match hflag : (if env.userId.isSome then env.cancelAt round else none) with
            | some lvl =>
                rw [hflag] at hrun
                simp only [Option.some_inj] at hrun
                rw [← hrun] at hc
                exact absurd hc (by simp [cancelOut])
            | none =>
                rw [hflag] at hrun
                refine ih (round + 1) _ res ?_ hrun hc
                rw [toolFold]
                exact toolPairing_append_batch env _ r htrim

theorem sent_iff_after_fold (env : Env) (tcs : List RawTC) (st : LoopSt)
    (h : st.sent = true ↔ Act.toolExec "send_image" ∈ st.trace) :
    ((tcs.foldl (toolStep env) st).sent = true
      ↔ Act.toolExec "send_image" ∈ (tcs.foldl (toolStep env) st).trace) := by
  rw [toolFold]
  simp only [List.mem_append, Bool.or_eq_true, List.any_eq_true, List.mem_map]
  constructor
  · rintro (hs | hany)
    · exact Or.inl (h.mp hs)
    · obtain ⟨tc, htc, hname⟩ := hany
      exact Or.inr ⟨tc, htc, by simp [eq_of_beq hname]⟩
  · rintro (hs | hmap)
    · exact Or.inl (h.mpr hs)
    · obtain ⟨tc, htc, heq⟩ := hmap
      right
      refine ⟨tc, htc, ?_⟩
      have hn : tc.name = "send_image" := by
        have := heq
        simp only [Act.toolExec.injEq] at this
        exact this
      simp [hn]

theorem runLoop_sent_iff (env : Env) (fuel : Nat) :
    ∀ round st res, (st.sent = true ↔ Act.toolExec "send_image" ∈ st.trace) →
      runLoop env round fuel st = some res →
      (res.sentImage = true ↔ Act.toolExec "send_image" ∈ res.trace) := by
  induction fuel with
  | zero =>
      intro round st res h hrun
      have hres : res = finishRound true st := by simpa [runLoop] using hrun.symm
      rw [hres, finishRound_sent, finishRound_sendExec_mem]
      exact h
  | succ fuel ih =>
      intro round st res h hrun
      rw [runLoop] at hrun
      match hscript : st.script with
      | [] => rw [hscript] at hrun; exact absurd hrun (by simp)
      | r :: rest =>
          rw [hscript] at hrun
          simp only [] at hrun
          have habs : ((roundAbsorb st r rest (trim_messages_to_fit env.systemPrompt
              env.toolsJson env.num_ctx st.msgs)).sent = true
              ↔ Act.toolExec "send_image" ∈ (roundAbsorb st r rest (trim_messages_to_fit
                env.systemPrompt env.toolsJson env.num_ctx st.msgs)).trace) := by
            show st.sent = true ↔ Act.toolExec "send_image" ∈ st.trace ++ [Act.modelCall]
            simpa using h
          by_cases hempty : (extract_tool_calls env r).isEmpty = true
          · rw [if_pos hempty] at hrun
            have hres := Option.some_inj.mp hrun
            rw [← hres, finishRound_sent, finishRound_sendExec_mem]
            exact habs
          · rw [if_neg hempty] at hrun
            match hflag : (if env.userId.isSome then env.cancelAt round else none) with
            | some lvl =>
                rw [hflag] at hrun
                simp only [] at hrun
                have hres := Option.some_inj.mp hrun
                rw [← hres]
                simpa [cancelOut] using habs
            | none =>
                rw [hflag] at hrun
                simp only [] at hrun
                refine ih (round + 1) _ res ?_ hrun
                apply sent_iff_after_fold
                exact habs

theorem runLoop_content_sent (env : Env) (fuel : Nat) :
    ∀ round st res, runLoop env round fuel st = some res →
      res.cancelled = false → res.sentImage = true → res.content = "" := by
  induction fuel with
  | zero =>
      intro round st res hrun _ hs
      have hres : res = finishRound true st := by simpa [runLoop] using hrun.symm
      subst hres
      exact finishRound_content_sent true st (by rw [← finishRound_sent true st]; exact hs)
  | succ fuel ih =>
      intro round st res hrun hc hs
      rw [runLoop] at hrun
      match hscript : st.script with
      | [] => rw [hscript] at hrun; exact absurd hrun (by simp)
      | r :: rest =>
          rw [hscript] at hrun
          simp only [] at hrun
          by_cases hempty : (extract_tool_calls env r).isEmpty = true
          · rw [if_pos hempty] at hrun
            have hres := Option.some_inj.mp hrun
            subst hres
            apply finishRound_content_sent
            rw [← finishRound_sent false]
            exact hs
          · rw [if_neg hempty] at hrun
            match hflag : (if env.userId.isSome then env.cancelAt round else none) with
            | some lvl =>
                rw [hflag] at hrun
                simp only [] at hrun
                have hres := Option.some_inj.mp hrun
                rw [← hres] at hc
                exact absurd hc (by simp [cancelOut])
            | none =>
                rw [hflag] at hrun
                simp only [] at hrun
                exact ih (round + 1) _ res hrun hc hs

theorem runLoop_cancel_shape (env : Env) (fuel : Nat) :
    ∀ round st res, runLoop env round fuel st = some res → res.cancelled = true →
      (∃ pre, res.trace = pre ++ [Act.modelCall, Act.clearCancel])
      ∧ (∃ s, res.content = pyStrip (s ++ cancelMarker))
      ∧ (∃ pre a, res.msgs = pre ++ [a, { role := "assistant", content := res.content }]
          ∧ a.role = "assistant") := by
  induction fuel with
  | zero =>
      intro round st res hrun hc
      have hres : res = finishRound true st := by simpa [runLoop] using hrun.symm
      rw [hres, finishRound_cancelled] at hc
      exact absurd hc (by simp)
  | succ fuel ih =>
      intro round st res hrun hc
      rw [runLoop] at hrun
      match hscript : st.script with
      | [] => rw [hscript] at hrun; exact absurd hrun (by simp)
      | r :: rest =>
          rw [hscript] at hrun
          simp only [] at hrun
          by_cases hempty : (extract_tool_calls env r).isEmpty = true
          · rw [if_pos hempty] at hrun
            have hres := Option.some_inj.mp hrun
            rw [← hres, finishRound_cancelled] at hc
            exact absurd hc (by simp)
          · rw [if_neg hempty] at hrun
            match hflag : (if env.userId.isSome then env.cancelAt round else none) with
            | some lvl =>
                rw [hflag] at hrun
                simp only [] at hrun
                have hres := Option.some_inj.mp hrun
                subst hres
                refine ⟨⟨st.trace, ?_⟩,
                        ⟨(roundAbsorb st r rest (trim_messages_to_fit env.systemPrompt
                            env.toolsJson env.num_ctx st.msgs)).totalContent, rfl⟩,
                        ⟨(roundAbsorb st r rest (trim_messages_to_fit env.systemPrompt
                            env.toolsJson env.num_ctx st.msgs)).msgs,
                         assistantMsg r r.toolCalls, ?_, rfl⟩⟩
                · simp [cancelOut, roundAbsorb]
                · simp [cancelOut, cancelNoteMsg]
            | none =>
                rw [hflag] at hrun
                simp only [] at hrun
                exact ih (round + 1) _ res hrun hc

theorem runLoop_nocancel (env : Env) (hcan : ∀ r, env.cancelAt r = none) (fuel : Nat) :
    ∀ round st res, runLoop env round fuel st = some res → res.cancelled = false := by
  induction fuel with
  | zero =>
      intro round st res hrun
      have hres : res = finishRound true st := by simpa [runLoop] using hrun.symm
      rw [hres]
      exact finishRound_cancelled true st
  | succ fuel ih =>
      intro round st res hrun
      rw [runLoop] at hrun
      match hscript : st.script with
      | [] => rw [hscript] at hrun; exact absurd hrun (by simp)
      | r :: rest =>
          rw [hscript] at hrun
          simp only [] at hrun
          by_cases hempty : (extract_tool_calls env r).isEmpty = true
          · rw [if_pos hempty] at hrun
            have hres := Option.some_inj.mp hrun
            rw [← hres]
            exact finishRound_cancelled false _
          · rw [if_neg hempty] at hrun
            have hflag : (if env.userId.isSome then env.cancelAt round else none) = none := by
              split
              · exact hcan round
              · rfl
            rw [hflag] at hrun
            exact ih (round + 1) _ res hrun

theorem chat_round_model_lift (cap : Nat) (history : List Msg) (user : String) :
    ∀ envs res, chat_round_model cap history user envs = some res →
      ∃ env, env ∈ envs ∧ chatRoundAttempt env cap history user = some res := by
  intro envs
  induction envs with
  | nil => intro res h; simp [chat_round_model] at h
  | cons e rest ih =>
      intro res h
      rw [chat_round_model] at h
      match hatt : chatRoundAttempt e cap history user with
      | some r =>
          rw [hatt] at h
          simp only [] at h
          exact ⟨e, by simp, by rw [hatt]; exact h⟩
      | none =>
          rw [hatt] at h
          simp only [] at h
          obtain ⟨env, henv, hres⟩ := ih res h
          exact ⟨env, by simp [henv], hres⟩

theorem attempt_init_pairing (history : List Msg) (user : String)
    (h : toolPairing history = true) :
    toolPairing (history ++ [userMsg user]) = true :=
  toolPairing_append_nonbatch history (userMsg user) h (by rfl) (by simp [userMsg])

/-! ## Streaming lemmas (claims C2 and C5) -/

theorem joinStr_append (l1 l2 : List String) :
    joinStr (l1 ++ l2) = joinStr l1 ++ joinStr l2 := by
  induction l1 with
  | nil => simp [joinStr, String.empty_append]
  | cons s rest ih => simp [joinStr, ih, String.append_assoc]

theorem deltasConcat_append (e1 e2 : List SEv) :
    deltasConcat (e1 ++ e2) = deltasConcat e1 ++ deltasConcat e2 := by
  simp [deltasConcat, List.filterMap_append, joinStr_append]

theorem deltasConcat_cons_content (p : String) (es : List SEv) :
    deltasConcat (SEv.contentDelta p :: es) = p ++ deltasConcat es := rfl

theorem deltasConcat_contentDeltas (parts : List String) :
    deltasConcat ((parts.filter (fun p => p ≠ "")).map SEv.contentDelta) = joinStr parts := by
  induction parts with
  | nil => rfl
  | cons p rest ih =>
      by_cases hp : p = ""
      · subst hp
        simpa [joinStr, String.empty_append] using ih
      · rw [show ((p :: rest).filter (fun p => p ≠ "")) = p :: rest.filter (fun p => p ≠ "") by
            simp [List.filter_cons, hp]]
        rw [List.map_cons, deltasConcat_cons_content, ih]
        rfl

theorem deltasConcat_thinking (r : Resp) : deltasConcat (thinkingDeltaEvs r) = "" := by
  unfold thinkingDeltaEvs
  split <;> rfl

theorem deltasConcat_statusMap (tcs : List RawTC) :
    deltasConcat (tcs.map (fun tc => SEv.statusEv ("Tool: " ++ tc.name))) = "" := by
  induction tcs with
  | nil => rfl
  | cons tc rest ih => simpa [deltasConcat, List.filterMap] using ih

theorem deltasConcat_toolCallEv (names : List String) :
    deltasConcat [SEv.toolCallEv names] = "" := rfl

/-- The streaming invariant: the accumulated content equals the
concatenation of the content deltas emitted so far. -/
def streamInv (st : StreamSt) : Prop := st.totalContent = deltasConcat st.events

theorem deltasConcat_contentDeltaEvs (r : Resp) :
    deltasConcat (contentDeltaEvs r) = Resp.content r := by
  unfold contentDeltaEvs Resp.content
  exact deltasConcat_contentDeltas r.contentParts

theorem streamInv_absorb (st : StreamSt) (r : Resp) (rest : List Resp) (trimmed : List Msg)
    (h : streamInv st) : streamInv (streamAbsorb st r rest trimmed) := by
  unfold streamInv streamAbsorb at *
  simp only []
  rw [deltasConcat_append, deltasConcat_append, deltasConcat_thinking,
    deltasConcat_contentDeltaEvs, ← h]
  simp [String.append_empty]

theorem streamToolFold (env : Env) (tcs : List RawTC) (st : StreamSt) :
    tcs.foldl (streamToolStep env) st =
      { st with
          events := st.events ++ tcs.map (fun tc => SEv.statusEv ("Tool: " ++ tc.name))
          msgs := st.msgs ++ tcs.map (toolMsg env)
          sent := st.sent || tcs.any (fun tc => tc.name == "send_image") } := by
  induction tcs generalizing st with
  | nil => simp
  | cons tc rest ih =>
      show rest.foldl (streamToolStep env) (streamToolStep env st tc) = _
      rw [ih]
      simp [streamToolStep, Bool.or_assoc]

theorem streamInv_fold (env : Env) (tcs : List RawTC) (st : StreamSt)
    (h : streamInv st) : streamInv (tcs.foldl (streamToolStep env) st) := by
  unfold streamInv at *
  rw [streamToolFold]
  simp only []
  rw [deltasConcat_append, deltasConcat_statusMap, String.append_empty]
  exact h

theorem streamInv_nudge (st : StreamSt) (h : streamInv st) : streamInv (streamNudge st) := by
  unfold streamInv at *
  unfold streamNudge
  match hscript : st.script with
  | [] => exact h
  | r :: rest =>
      simp only []
      by_cases hc : Resp.content r = ""
      · rw [if_neg (by simp [hc])]
        simp only [List.append_nil]
        rw [← h, hc, String.append_empty]
      · rw [if_pos (by simp [hc])]
        rw [deltasConcat_append, deltasConcat_cons_content, ← h]
        show st.totalContent ++ Resp.content r
          = st.totalContent ++ (Resp.content r ++ deltasConcat [])
        rw [show deltasConcat [] = "" from rfl, String.append_empty]

theorem streamInv_nudgeIfEmpty (st : StreamSt) (h : streamInv st) :
    streamInv (streamNudgeIfEmpty st) := by
  unfold streamNudgeIfEmpty
  split
  · exact streamInv_nudge st h
  · exact h

theorem toolPairing_append_batch_var (env : Env) (l : List Msg) (r : Resp) (tcs : List RawTC)
    (htcs : tcs = extract_tool_calls env r) (h : toolPairing l = true) :
    toolPairing (l ++ [assistantMsg r r.toolCalls] ++ tcs.map (toolMsg env)) = true := by
  subst htcs
  exact toolPairing_append_batch env l r h

theorem streamNudge_pairing (st : StreamSt) (h : toolPairing st.msgs = true) :
    toolPairing (streamNudge st).msgs = true := by
  unfold streamNudge
  split
  · exact toolPairing_append_nonbatch _ _ h (by decide) (by decide)
  · exact toolPairing_append_nonbatch _ _
      (toolPairing_append_nonbatch _ _ h (by decide) (by decide)) (by rfl) (by simp [assistantPlain])

theorem streamNudgeIfEmpty_pairing (st : StreamSt) (h : toolPairing st.msgs = true) :
    toolPairing (streamNudgeIfEmpty st).msgs = true := by
  unfold streamNudgeIfEmpty
  split
  · exact streamNudge_pairing st h
  · exact h

theorem streamWrapup_pairing (st : StreamSt) (h : toolPairing st.msgs = true) :
    toolPairing (streamWrapup st).msgs = true := by
  unfold streamWrapup
  split
  · exact toolPairing_append_nonbatch _ _ h (by decide) (by decide)
  · exact toolPairing_append_nonbatch _ _
      (toolPairing_append_nonbatch _ _ h (by decide) (by decide)) (by rfl) (by simp [wrapupAsstMsg])

theorem streamGo_pairing (env : Env) (fuel : Nat) :
    ∀ round st, toolPairing st.msgs = true →
      (streamGo env round fuel st).cancelled = false →
      toolPairing (streamGo env round fuel st).msgs = true := by
  induction fuel with
  | zero =>
      intro round st h _
      show toolPairing (streamFinishDone true (if !st.sent then streamWrapup st else st)).msgs = true
      show toolPairing (if !st.sent then streamWrapup st else st).msgs = true
      split
      · exact streamWrapup_pairing st h
      · exact h
  | succ fuel ih =>
      intro round st h hc
      rw [streamGo] at hc ⊢
      match hscript : st.script with
      | [] =>
          exact trim_pairing _ _ _ _ h
      | r :: rest =>
          rw [hscript] at hc
          simp only [] at hc ⊢
          have htrim : toolPairing (trim_messages_to_fit env.systemPrompt env.toolsJson
              env.num_ctx st.msgs) = true := trim_pairing _ _ _ _ h
          by_cases hempty : r.toolCalls.isEmpty = true
          · rw [if_pos hempty] at hc ⊢
            show toolPairing (streamNudgeIfEmpty _).msgs = true
            apply streamNudgeIfEmpty_pairing
            exact toolPairing_append_nonbatch _ _ htrim (by rfl) (by simp [assistantPlain])
          · rw [if_neg hempty] at hc ⊢
            match hflag : (if env.userId.isSome then env.cancelAt round else none) with
            | some lvl =>
                rw [hflag] at hc
                simp only [] at hc
                exact absurd hc (by simp [streamCancelOut])
            | none =>
                rw [hflag] at hc
                simp only [] at hc ⊢
                refine ih (round + 1) _ ?_ hc
                rw [streamToolFold]
                simp only []
                exact toolPairing_append_batch_var env _ r r.toolCalls
                  (by simp [extract_tool_calls, hempty]) htrim

theorem streamInv_declare (st : StreamSt) (names : List String) (newMsgs : List Msg)
    (h : streamInv st) :
    streamInv { st with events := st.events ++ [SEv.toolCallEv names], msgs := newMsgs } := by
  unfold streamInv at *
  simp only []
  rw [deltasConcat_append, ← h]
  rw [show deltasConcat [SEv.toolCallEv names] = "" from rfl, String.append_empty]

theorem streamFinishDone_deltas (b : Bool) (st : StreamSt) (hinv : streamInv st)
    (hsent : st.sent = false) :
    ∃ pre t, (streamFinishDone b st).events
      = pre ++ [SEv.doneEv (pyStrip (deltasConcat pre)) t false] := by
  refine ⟨st.events, pyStrip st.totalThinking, ?_⟩
  unfold streamFinishDone
  simp only []
  rw [hsent]
  unfold streamInv at hinv
  rw [← hinv]
  simp

theorem streamCancelOut_deltas (st : StreamSt) (hinv : streamInv st)
    (hsent : st.sent = false) :
    ∃ pre t, (streamCancelOut st).events
      = pre ++ [SEv.doneEv (pyStrip (deltasConcat pre)) t false] := by
  refine ⟨st.events ++ [SEv.contentDelta cancelMarker], pyStrip st.totalThinking, ?_⟩
  unfold streamCancelOut
  simp only []
  rw [hsent]
  unfold streamInv at hinv
  rw [deltasConcat_append, deltasConcat_cons_content, ← hinv]
  rw [show deltasConcat [] = "" from rfl, String.append_empty]
  simp [List.append_assoc]

theorem streamFinishDone_sent_done (b : Bool) (st : StreamSt) (hsent : st.sent = true) :
    ∃ pre t, (streamFinishDone b st).events = pre ++ [SEv.doneEv "" t false] := by
  refine ⟨st.events, pyStrip st.totalThinking, ?_⟩
  unfold streamFinishDone
  simp only []
  rw [hsent]
  simp

theorem streamCancelOut_sent_done (st : StreamSt) (hsent : st.sent = true) :
    ∃ pre t, (streamCancelOut st).events = pre ++ [SEv.doneEv "" t false] := by
  refine ⟨st.events ++ [SEv.contentDelta cancelMarker], pyStrip st.totalThinking, ?_⟩
  unfold streamCancelOut
  simp only []
  rw [hsent]
  simp [List.append_assoc]

theorem streamNudge_sent (st : StreamSt) : (streamNudge st).sent = st.sent := by
  unfold streamNudge
  split <;> rfl

theorem streamNudgeIfEmpty_sent (st : StreamSt) : (streamNudgeIfEmpty st).sent = st.sent := by
  unfold streamNudgeIfEmpty
  split
  · exact streamNudge_sent st
  · rfl

theorem streamGo_deltas (env : Env) (fuel : Nat) :
    ∀ round st, streamInv st →
      (streamGo env round fuel st).errored = false →
      (streamGo env round fuel st).hitCap = false →
      (streamGo env round fuel st).sent = false →
      ∃ pre t, (streamGo env round fuel st).events
        = pre ++ [SEv.doneEv (pyStrip (deltasConcat pre)) t false] := by
  induction fuel with
  | zero =>
      intro round st _ _ hcap _
      exact absurd hcap (by simp [streamGo, streamFinishDone])
  | succ fuel ih =>
      intro round st hinv herr hcap hsent
      rw [streamGo] at herr hcap hsent ⊢
      match hscript : st.script with
      | [] =>
          rw [hscript] at herr
          exact absurd herr (by simp [streamErrorOut])
      | r :: rest =>
          rw [hscript] at herr hcap hsent
          simp only [] at herr hcap hsent ⊢
          by_cases hempty : r.toolCalls.isEmpty = true
          · rw [if_pos hempty] at hsent ⊢
            apply streamFinishDone_deltas
            · apply streamInv_nudgeIfEmpty
              exact streamInv_absorb st r rest _ hinv
            · exact hsent
          · rw [if_neg hempty] at herr hcap hsent ⊢
            match hflag : (if env.userId.isSome then env.cancelAt round else none) with
            | some lvl =>
                rw [hflag] at hsent
                simp only [] at hsent ⊢
                apply streamCancelOut_deltas
                · apply streamInv_declare
                  exact streamInv_absorb st r rest _ hinv
                · exact hsent
            | none =>
                rw [hflag] at herr hcap hsent
                simp only [] at herr hcap hsent ⊢
                refine ih (round + 1) _ ?_ herr hcap hsent
                apply streamInv_fold
                apply streamInv_declare
                exact streamInv_absorb st r rest _ hinv

theorem streamGo_sent_done (env : Env) (fuel : Nat) :
    ∀ round st, (streamGo env round fuel st).errored = false →
      (streamGo env round fuel st).sent = true →
      ∃ pre t, (streamGo env round fuel st).events = pre ++ [SEv.doneEv "" t false] := by
  induction fuel with
  | zero =>
      intro round st _ hsent
      exact streamFinishDone_sent_done true _ hsent
  | succ fuel ih =>
      intro round st herr hsent
      rw [streamGo] at herr hsent ⊢
      match hscript : st.script with
      | [] =>
          rw [hscript] at herr
          exact absurd herr (by simp [streamErrorOut])
      | r :: rest =>
          rw [hscript] at herr hsent
          simp only [] at herr hsent ⊢
          by_cases hempty : r.toolCalls.isEmpty = true
          · rw [if_pos hempty] at hsent ⊢
            exact streamFinishDone_sent_done false _ hsent
          · rw [if_neg hempty] at herr hsent ⊢
            match hflag : (if env.userId.isSome then env.cancelAt round else none) with
            | some lvl =>
                rw [hflag] at hsent
                simp only [] at hsent ⊢
                exact streamCancelOut_sent_done _ hsent
            | none =>
                rw [hflag] at herr hsent
                simp only [] at herr hsent ⊢
                exact ih (round + 1) _ herr hsent

/-! ## Claim C2 — the tool-pairing invariant of produced message lists -/

/-- C2 counterexample: a turn cancelled at the round boundary.  The
produced message list ends with the assistant message that declared the
exec call followed directly by the final assistant note — none of the
declared calls receives a tool message, so the pairing invariant is
violated, although the incoming history (empty) satisfied it. -/
theorem C2_counterexample :
    toolPairing ([] : List Msg) = true
    ∧ ((chat_round_model 15 [] "do it" [envCancelX]).getD default).cancelled = true
    ∧ toolPairing ((chat_round_model 15 [] "do it" [envCancelX]).getD default).msgs = false := by
  refine ⟨rfl, ?_, ?_⟩ <;> decide

/-- C2 (amended): in every message list produced by one turn of the
tool-calling loop — blocking (`chat_round`) or streaming
(`chat_round_stream`) — every assistant message carrying tool calls is
followed by exactly one tool message per declared call, in declaration
order, before any further user or assistant message, *provided the turn
was not cancelled*; a cancellation observed right after the assistant
message that declared the calls leaves those calls unanswered, the list
closing with an assistant note instead. -/
theorem C2_tool_pairing :
    (∀ cap history user envs res, toolPairing history = true →
        chat_round_model cap history user envs = some res → res.cancelled = false →
        toolPairing res.msgs = true)
    ∧ (∀ env cap history user, toolPairing history = true →
        (streamRun env cap history user).cancelled = false →
        toolPairing (streamRun env cap history user).msgs = true) := by
  constructor
  · intro cap history user envs res hh hmod hc
    obtain ⟨env, _, hatt⟩ := chat_round_model_lift cap history user envs res hmod
    exact runLoop_pairing env cap 0 _ res (attempt_init_pairing history user hh) hatt hc
  · intro env cap history user hh hc
    exact streamGo_pairing env cap 0 _ (attempt_init_pairing history user hh) hc

/-- Witness for C2_tool_pairing at a concrete non-cancelled turn. -/
theorem C2_tool_pairing_witness :
    toolPairing ((chat_round_model 15 [] "hi" [envPlainW]).getD default).msgs = true :=
  C2_tool_pairing.1 15 [] "hi" [envPlainW]
    ((chat_round_model 15 [] "hi" [envPlainW]).getD default) (by decide) rfl rfl

/-! ## Claim C3 — cancellation at a round boundary -/

/-- C3 counterexample: in a cancelled turn the appended marker is the
German `*(Verarbeitung abgebrochen)*` (chat_loop.py lines 2107/2109),
and the literal `(processing cancelled)` stated by the claim appears
nowhere in the final content. -/
theorem C3_counterexample :
    ((chat_round_model 15 [] "do it" [envCancelX]).getD default).content
      = "Working on it.\n\n*(Verarbeitung abgebrochen)*"
    ∧ strContainsSub ((chat_round_model 15 [] "do it" [envCancelX]).getD default).content
        "(processing cancelled)" = false := by
  constructor <;> decide

/-- C3 (amended): whenever the tool-calling loop observes a set
cancellation flag at a round boundary (after a model response that
declared tool calls), it clears the flag as the final action — the
trace ends with the model call followed immediately by the clear, so
none of the pending tool calls is executed and no further model call is
issued in that turn — appends `\n\n*(Verarbeitung abgebrochen)*` (not
the literal `(processing cancelled)`) to the current content, and closes
the message list with an assistant note carrying that content directly
after the assistant message that declared the calls. -/
theorem C3_cancellation (cap : Nat) (history : List Msg) (user : String)
    (envs : List Env) (res : RoundOut)
    (h : chat_round_model cap history user envs = some res)
    (hc : res.cancelled = true) :
    (∃ pre, res.trace = pre ++ [Act.modelCall, Act.clearCancel])
    ∧ (∃ s, res.content = pyStrip (s ++ cancelMarker))
    ∧ (∃ pre a, res.msgs = pre ++ [a, { role := "assistant", content := res.content }]
        ∧ a.role = "assistant") := by
  obtain ⟨env, _, hatt⟩ := chat_round_model_lift cap history user envs res h
  exact runLoop_cancel_shape env cap 0 _ res hatt hc

/-- Witness for C3_cancellation at the concrete cancelled turn. -/
theorem C3_cancellation_witness :
    ∃ pre, ((chat_round_model 15 [] "stop me" [envCancelX]).getD default).trace
      = pre ++ [Act.modelCall, Act.clearCancel] :=
  (C3_cancellation 15 [] "stop me" [envCancelX]
    ((chat_round_model 15 [] "stop me" [envCancelX]).getD default) rfl (by decide)).1

/-! ## Claim C4 — send_image and content suppression -/

/-- C4 counterexample: a `send_image` call whose result is the error
string `send_image requires image_path` (not an ok result) still sets
the `_sent_image` flag, and the final content of the turn is suppressed
to empty although the model produced text — refuting both "set only
when the result is ok" and "suppressed iff successful". -/
theorem C4_counterexample :
    ((chat_round_model 15 [] "send it" [envSendImageX]).getD default).sentImage = true
    ∧ ((chat_round_model 15 [] "send it" [envSendImageX]).getD default).msgs.any
        (fun m => m.role == "tool" && m.content == "send_image requires image_path") = true
    ∧ ((chat_round_model 15 [] "send it" [envSendImageX]).getD default).content = "" := by
  refine ⟨?_, ?_, ?_⟩ <;> decide

/-- C4 (amended): the internal `sent_image` flag is set exactly when a
`send_image` tool call is executed in the turn, regardless of whether
its result string reports success; and in every non-cancelled turn in
which the flag is set the final content is empty.  (The converse of the
suppression does not hold: the content can also be empty when no
send_image ran, e.g. after a failed nudge.) -/
theorem C4_send_image (cap : Nat) (history : List Msg) (user : String)
    (envs : List Env) (res : RoundOut)
    (h : chat_round_model cap history user envs = some res) :
    (res.sentImage = true ↔ Act.toolExec "send_image" ∈ res.trace)
    ∧ (res.cancelled = false → res.sentImage = true → res.content = "") := by
  obtain ⟨env, _, hatt⟩ := chat_round_model_lift cap history user envs res h
  exact ⟨runLoop_sent_iff env cap 0 _ res (by simp) hatt,
         fun hc hs => runLoop_content_sent env cap 0 _ res hatt hc hs⟩

/-- Witness for C4_send_image at the concrete send_image turn. -/
theorem C4_send_image_witness :
    Act.toolExec "send_image"
      ∈ ((chat_round_model 15 [] "mail it" [envSendImageX]).getD default).trace
    ∧ ((chat_round_model 15 [] "mail it" [envSendImageX]).getD default).content = "" := by
  have h := C4_send_image 15 [] "mail it" [envSendImageX]
    ((chat_round_model 15 [] "mail it" [envSendImageX]).getD default) rfl
  exact ⟨h.1.mp (by decide), h.2 (by decide) (by decide)⟩

/-! ## Claim C5 — streamed deltas versus the terminal done content -/

/-- C5 counterexample: a streamed turn whose single content delta is
`"hello "` — the done event carries the *stripped* accumulation
`"hello"` (line 2403), so the concatenation of the deltas does not equal
the done content. -/
theorem C5_counterexample :
    (streamRun envStreamX 15 [] "hi").events
      = [SEv.contentDelta "hello ", SEv.doneEv "hello" "" false]
    ∧ deltasConcat (streamRun envStreamX 15 [] "hi").events = "hello "
    ∧ ("hello " : String) ≠ "hello" := by
  refine ⟨?_, ?_, ?_⟩ <;> decide

/-- C5 (amended): for every streamed turn whose adapter calls succeed,
the terminal done event carries the concatenation of the content deltas
*stripped of leading and trailing whitespace* — provided the turn does
not exhaust the round cap (whose wrap-up replaces the accumulation) and
no send_image call was executed; when a send_image call was executed the
done content is empty regardless of the deltas. -/
theorem C5_stream_deltas (env : Env) (cap : Nat) (history : List Msg) (user : String)
    (herr : (streamRun env cap history user).errored = false) :
    ((streamRun env cap history user).hitCap = false →
      (streamRun env cap history user).sent = false →
      ∃ pre t, (streamRun env cap history user).events
        = pre ++ [SEv.doneEv (pyStrip (deltasConcat pre)) t false])
    ∧ ((streamRun env cap history user).sent = true →
      ∃ pre t, (streamRun env cap history user).events = pre ++ [SEv.doneEv "" t false]) := by
  constructor
  · intro hcap hsent
    exact streamGo_deltas env cap 0 _ (by unfold streamInv; rfl) herr hcap hsent
  · intro hsent
    exact streamGo_sent_done env cap 0 _ herr hsent

/-- Witness for C5_stream_deltas at a concrete streamed tool turn. -/
theorem C5_stream_deltas_witness :
    ∃ pre t, (streamRun envStreamW 15 [] "go").events
      = pre ++ [SEv.doneEv (pyStrip (deltasConcat pre)) t false] :=
  (C5_stream_deltas envStreamW 15 [] "go" (by decide)).1 (by decide) (by decide)

/-! ## Claim C10 — the cancellation flag is cleared before the loop -/

theorem latestExt_none (ext : Nat → Option String) (hext : ∀ r, ext r = none) :
    ∀ r, latestExt ext r = none := by
  intro r
  induction r with
  | zero => simpa [latestExt] using hext 0
  | succ r ih => simp [latestExt, hext (r + 1), ih]

/-- C10: at the start of every ordinary turn handled by
`handle_user_input` with a bound chat context, `clear_cancel` resets the
user's flag before the loop begins — so the turn's outcome does not
depend on any flag set before the turn, and a `/stop` or `/abort`
issued while no turn was in flight (no request during the turn) never
cancels the following turn. -/
theorem C10_clear_before_loop (f0 f0' : Option String) (ext : Nat → Option String)
    (e : TurnEnv) (cap : Nat) (history : List Msg) (user : String) :
    handle_user_turn f0 ext e cap history user = handle_user_turn f0' ext e cap history user
    ∧ ((∀ r, ext r = none) → ∀ res,
        handle_user_turn f0 ext e cap history user = some res → res.cancelled = false) := by
  constructor
  · rfl
  · intro hext res hres
    have hcan : ∀ r, (envWithCancel e (registryFlagAt none ext)).cancelAt r = none := by
      intro r
      show registryFlagAt none ext r = none
      unfold registryFlagAt
      rw [latestExt_none ext hext r]
    exact runLoop_nocancel (envWithCancel e (registryFlagAt none ext)) hcan cap 0 _ res hres

/-- Witness for C10_clear_before_loop: a stale `stop` flag set before
the turn does not cancel it. -/
theorem C10_clear_before_loop_witness :
    ((handle_user_turn (some "stop") (fun _ => none) turnEnvW 15 [] "hello").getD
      default).cancelled = false :=
  (C10_clear_before_loop (some "stop") none (fun _ => none) turnEnvW 15 [] "hello").2
    (fun _ => rfl)
    ((handle_user_turn (some "stop") (fun _ => none) turnEnvW 15 [] "hello").getD default)
    rfl

end Miniassistant
